import Mathlib

/-! GrGLPathProcessor.

A shallow embedding of `src/gpu/gl/GrGLPathProcessor.cpp`: the processor key,
the per-draw colour push, and the two coordinate-transform strategies
(`GrGLLegacyPathProcessor`, fixed-function texture-coordinate generation, and
`GrGLNormalPathProcessor`, separable varyings).

Conventions of the embedding.

* Arrays (`SkTArray`) are lists; `push_back_n(n)` appends `n` default elements;
  `arr[i].f = v` is `modifyAt`.
* Calls made on the device objects (`GrGLProgramDataManager`,
  `GrGLPathRendering`) are recorded, in order, as the list a function returns.
* A function whose C++ body indexes an array or checks an `SkASSERT` returns an
  `Option`; `none` stands for an out-of-range access or a failed assertion.
* Matrices, coordinate transforms and the shader builder are declared outside
  this translation unit. They are type parameters, and the operations the code
  calls on them are the fields of `Collaborators`.
* `int` counters are array lengths and sums of array lengths; they are kept as
  unbounded integers.
-/

namespace GrGL

/-! ## Types declared in headers the translation unit includes -/

/-- A packed 32-bit colour (`GrColor`), as its numeric value. -/
abbrev GrColor := Nat

/-- The numeric value of a `GrGPInput` enumerator. The enumeration is declared in a header
that is not part of the sources; the properties below take its values as parameters. -/
abbrev GrGPInput := Nat

/-- The shading-language types this file mentions, and `kVoid_GrSLType`, the type of a
default-constructed `Transform`. -/
inductive GrSLType where
  | kVoid_GrSLType
  | kVec2f_GrSLType
  | kVec3f_GrSLType
  | kVec4f_GrSLType
  deriving DecidableEq, Repr

open GrSLType

/-- Symbolic GL enumerants passed through to the device. -/
inductive GrGLenum where
  | GR_GL_OBJECT_LINEAR
  | GR_GL_FRAGMENT_INPUT
  deriving DecidableEq, Repr

/-- The component selector of `GrGLPathRendering::enablePathTexGen`. -/
inductive PathTexGenComponents where
  | kST_PathTexGenComponents
  | kSTR_PathTexGenComponents
  deriving DecidableEq, Repr

open PathTexGenComponents

/-- Modelled from the spec: the handle class `ShaderVarHandle` is declared in a header
that is not part of the sources. It is an opaque identifier (a texture-coordinate set
index or a varying slot index) carrying a validity flag, invalid until assigned; the
integer `-1` is the unassigned value. -/
structure ShaderVarHandle where
  fValue : Int
  deriving DecidableEq, Repr

/-- The default-constructed, unassigned handle. -/
def ShaderVarHandle.invalid : ShaderVarHandle := ⟨-1⟩

/-- Validity flag of a handle (`isValid()`). -/
def ShaderVarHandle.isValid (h : ShaderVarHandle) : Bool := decide (h.fValue ≠ -1)

/-- The integer a handle stands for (`handle()`). -/
def ShaderVarHandle.handle (h : ShaderVarHandle) : Int := h.fValue

/-- A shader variable as far as this file reads it: its type and its name (`c_str()`). -/
structure GrGLShaderVar where
  fType : GrSLType
  fName : String
  deriving DecidableEq, Repr

/-- The name of a shader variable. -/
def GrGLShaderVar.c_str (v : GrGLShaderVar) : String := v.fName

/-- One element of `TransformsOut`: the expression a fragment stage reads and its type. -/
structure TransformedCoords where
  fName : String
  fType : GrSLType
  deriving DecidableEq, Repr

/-- The output array of `emitTransforms`, one array of coordinates per group. -/
abbrev TransformsOut := List (List TransformedCoords)

/-- The fields of `PathBatchTracker` that this file reads. -/
structure PathBatchTracker where
  fInputColorType : GrGPInput
  fInputCoverageType : GrGPInput
  fColor : GrColor
  deriving DecidableEq, Repr

/-- The operations this file calls on its collaborators: `SkMatrix`
(`hasPerspective`, `InvalidMatrix`), `GrCoordTransform` (`getMatrix`), the base class
helper `GetTransformMatrix`, `GrGLSLTypeString`, the program builder (`addVarying`,
returning the builder afterwards and the `fsIn()` name of the varying, and the last
element of the fragment builder's `fInputs`), and the device query
`GetProgramResourceLocation` for a fragment input of a program. -/
structure Collaborators (SkMatrix GrCoordTransform Builder : Type) where
  hasPerspective : SkMatrix → Bool
  InvalidMatrix : SkMatrix
  getMatrix : GrCoordTransform → SkMatrix
  GetTransformMatrix : SkMatrix → GrCoordTransform → SkMatrix
  GrGLSLTypeString : GrSLType → String
  addVarying : Builder → String → GrSLType → Builder × String
  fInputsBack : Builder → GrGLShaderVar
  GetProgramResourceLocation : Nat → String → Int

/-- Modelled from the spec: `SkMatrix::cheapEqualTo` is not part of the sources; the
per-draw update compares the combined matrix with the cached one by value, not by
identity. -/
def cheapEqualTo {SkMatrix : Type} [DecidableEq SkMatrix] (a b : SkMatrix) : Bool :=
  decide (a = b)

/-- An installed transform entry (`GrGLPrimitiveProcessor::Transform`). -/
structure Transform (SkMatrix : Type) where
  fHandle : ShaderVarHandle
  fCurrentValue : SkMatrix
  fType : GrSLType

/-- Modelled from the spec: the constructor of `Transform` is declared in a header that
is not part of the sources. A new entry has an invalid handle, no shading type yet, and a
cached matrix set to the invalid matrix. -/
def Transform.default {SkMatrix GrCoordTransform Builder : Type}
    (E : Collaborators SkMatrix GrCoordTransform Builder) : Transform SkMatrix :=
  { fHandle := ShaderVarHandle.invalid
    fCurrentValue := E.InvalidMatrix
    fType := kVoid_GrSLType }

/-- A call on `GrGLProgramDataManager`; `F` is the type of a four-float array. -/
inductive PdmanCall (F : Type) where
  | set4fv (u : Int) (arrayCount : Nat) (v : F)
  deriving DecidableEq, Repr

/-- A call on `GrGLPathRendering`. -/
inductive PathRenderingCall (SkMatrix : Type) where
  | enablePathTexGen (unitIdx : Int) (components : PathTexGenComponents) (matrix : SkMatrix)
  | flushPathTexGenSettings (numUsedTexCoordSets : Int)
  | setProgramPathFragmentInputTransform (program : Nat) (location : Int)
      (genMode : GrGLenum) (components : Nat) (matrix : SkMatrix)
  deriving DecidableEq, Repr

open PathRenderingCall

/-- The array element update `arr[i] = f(arr[i])`; an index outside the array changes
nothing. -/
def modifyAt {α : Type} (f : α → α) : Nat → List α → List α
  | _, [] => []
  | 0, x :: xs => f x :: xs
  | i + 1, x :: xs => x :: modifyAt f i xs

/-- The array growth `arr.push_back_n(n)` with default element `d`. -/
def push_back_n {α : Type} (arr : List α) (n : Nat) (d : α) : List α :=
  arr ++ List.replicate n d

/-! ## GrGLPathProcessor -/

/-- The processor key under construction: the 32-bit words added so far. -/
abbrev GrProcessorKeyBuilder := List Nat

/-- Appends one 32-bit word to the key (`add32`). -/
def GrProcessorKeyBuilder.add32 (b : GrProcessorKeyBuilder) (v : Nat) :
    GrProcessorKeyBuilder :=
  b ++ [v % 2 ^ 32]

/-- The state of the base class: the colour uniform handle and the cached colour. -/
structure GrGLPathProcessor where
  fColorUniform : Int
  fColor : GrColor
  deriving DecidableEq, Repr

/-- The constructor: the cached colour starts as `GrColor_ILLEGAL`; the uniform handle
is default-constructed. -/
def GrGLPathProcessor.new (GrColor_ILLEGAL : GrColor) : GrGLPathProcessor :=
  { fColorUniform := -1, fColor := GrColor_ILLEGAL }

/-- The function `GrGLPathProcessor::GenKey`. In C++ `<<` binds tighter than `|`, as here;
the enumerators are promoted to `int` and `add32` keeps the low 32 bits of the result. -/
def GrGLPathProcessor.GenKey (bt : PathBatchTracker) (b : GrProcessorKeyBuilder) :
    GrProcessorKeyBuilder :=
  b.add32 (bt.fInputColorType ||| bt.fInputCoverageType <<< 16)

/-- The function `GrGLPathProcessor::setData`. The enumerator `kUniform_GrGPInput` and the
conversion `GrColorToRGBAFloat` come from headers and are parameters. -/
def GrGLPathProcessor.setData {F : Type} (kUniform_GrGPInput : GrGPInput)
    (GrColorToRGBAFloat : GrColor → F) (self : GrGLPathProcessor) (bt : PathBatchTracker) :
    GrGLPathProcessor × List (PdmanCall F) :=
  if kUniform_GrGPInput = bt.fInputColorType ∧ bt.fColor ≠ self.fColor then
    ({ self with fColor := bt.fColor },
      [PdmanCall.set4fv self.fColorUniform 1 (GrColorToRGBAFloat bt.fColor)])
  else
    (self, [])

section Strategies

variable {SkMatrix GrCoordTransform Builder : Type}

/-- The shading type a transform is emitted with. -/
def typeOf (E : Collaborators SkMatrix GrCoordTransform Builder) (ct : GrCoordTransform) :
    GrSLType :=
  if E.hasPerspective (E.getMatrix ct) then kVec3f_GrSLType else kVec2f_GrSLType

/-! ## GrGLLegacyPathProcessor -/

/-- The state of the fixed-function strategy. -/
structure GrGLLegacyPathProcessor (SkMatrix : Type) extends GrGLPathProcessor where
  fInstalledTransforms : List (List (Transform SkMatrix))
  fTexCoordSetCnt : Int

/-- Modelled from the spec: `addTexCoordSets` is defined in the class header, which is
not part of the sources. It allocates one contiguous run of `count` texture-coordinate
set indices after the ones already allocated and returns the first index of the run;
the total number of allocated sets grows by `count`. -/
def GrGLLegacyPathProcessor.addTexCoordSets (self : GrGLLegacyPathProcessor SkMatrix)
    (count : Int) : GrGLLegacyPathProcessor SkMatrix × Int :=
  ({ self with fTexCoordSetCnt := self.fTexCoordSetCnt + count }, self.fTexCoordSetCnt)

/-- The inner loop of `GrGLLegacyPathProcessor::emitTransforms` over the transforms of
group `i`, with the running `texCoordIndex`. -/
def GrGLLegacyPathProcessor.emitCoords (E : Collaborators SkMatrix GrCoordTransform Builder)
    (i : Nat) : List GrCoordTransform → Int → TransformsOut → TransformsOut
  | [], _, tout => tout
  | ct :: rest, texCoordIndex, tout =>
    let type := typeOf E ct
    let name := E.GrGLSLTypeString type ++ "(gl_TexCoord[" ++ toString texCoordIndex ++ "])"
    GrGLLegacyPathProcessor.emitCoords E i rest (texCoordIndex + 1)
      (modifyAt (fun a => a ++ [⟨name, type⟩]) i tout)

/-- The outer loop of `GrGLLegacyPathProcessor::emitTransforms` over the groups still to
be processed, the first of which has index `i`. -/
def GrGLLegacyPathProcessor.emitGroups (E : Collaborators SkMatrix GrCoordTransform Builder) :
    List (List GrCoordTransform) → Nat → GrGLLegacyPathProcessor SkMatrix × TransformsOut →
      GrGLLegacyPathProcessor SkMatrix × TransformsOut
  | [], _, st => st
  | coordTransforms :: rest, i, (self, tout) =>
    let (self1, texCoordIndex) := self.addTexCoordSets coordTransforms.length
    let installed1 :=
      modifyAt (fun g => push_back_n g 1 (Transform.default E)) i self1.fInstalledTransforms
    let installed2 :=
      modifyAt (modifyAt (fun e => { e with fHandle := ⟨texCoordIndex⟩ }) 0) i installed1
    GrGLLegacyPathProcessor.emitGroups E rest (i + 1)
      ({ self1 with fInstalledTransforms := installed2 },
        GrGLLegacyPathProcessor.emitCoords E i coordTransforms texCoordIndex tout)

/-- The function `GrGLLegacyPathProcessor::emitTransforms`. -/
def GrGLLegacyPathProcessor.emitTransforms (E : Collaborators SkMatrix GrCoordTransform Builder)
    (self : GrGLLegacyPathProcessor SkMatrix) (tin : List (List GrCoordTransform))
    (tout : TransformsOut) : GrGLLegacyPathProcessor SkMatrix × TransformsOut :=
  GrGLLegacyPathProcessor.emitGroups E tin 0
    ({ self with
        fInstalledTransforms := push_back_n self.fInstalledTransforms tin.length [] },
      push_back_n tout tin.length [])

/-- The loop of `GrGLLegacyPathProcessor::setTransformData`, with the running
`texCoordIndex`. -/
def GrGLLegacyPathProcessor.texGenLoop (E : Collaborators SkMatrix GrCoordTransform Builder)
    (localMatrix : SkMatrix) : List GrCoordTransform → Int → List (PathRenderingCall SkMatrix)
  | [], _ => []
  | ct :: rest, texCoordIndex =>
    let transform := E.GetTransformMatrix localMatrix ct
    let components :=
      if E.hasPerspective transform then kSTR_PathTexGenComponents
      else kST_PathTexGenComponents
    enablePathTexGen texCoordIndex components transform ::
      GrGLLegacyPathProcessor.texGenLoop E localMatrix rest (texCoordIndex + 1)

/-- The function `GrGLLegacyPathProcessor::setTransformData`; `localMatrix` is
`primProc.localMatrix()`. -/
def GrGLLegacyPathProcessor.setTransformData
    (E : Collaborators SkMatrix GrCoordTransform Builder)
    (self : GrGLLegacyPathProcessor SkMatrix) (localMatrix : SkMatrix) (index : Nat)
    (transforms : List GrCoordTransform) : Option (List (PathRenderingCall SkMatrix)) :=
  match self.fInstalledTransforms[index]? with
  | none => none
  | some group =>
    match group[0]? with
    | none => none
    | some first =>
      some (GrGLLegacyPathProcessor.texGenLoop E localMatrix transforms first.fHandle.handle)

/-- The function `GrGLLegacyPathProcessor::didSetData`. -/
def GrGLLegacyPathProcessor.didSetData (self : GrGLLegacyPathProcessor SkMatrix) :
    List (PathRenderingCall SkMatrix) :=
  [flushPathTexGenSettings self.fTexCoordSetCnt]

/-! ## GrGLNormalPathProcessor -/

/-- One record of `fSeparableVaryingInfos`. -/
structure SeparableVaryingInfo where
  fType : GrSLType
  fVariable : GrGLShaderVar
  fLocation : Int
  deriving DecidableEq, Repr

/-- The state of the varying-based strategy. -/
structure GrGLNormalPathProcessor (SkMatrix : Type) extends GrGLPathProcessor where
  fInstalledTransforms : List (List (Transform SkMatrix))
  fSeparableVaryingInfos : List SeparableVaryingInfo

/-- What `GrGLNormalPathProcessor::emitTransforms` works on: the processor, the program
builder and the output array. -/
structure NormalEmit (SkMatrix Builder : Type) where
  proc : GrGLNormalPathProcessor SkMatrix
  pb : Builder
  tout : TransformsOut

/-- The body of the inner loop of `GrGLNormalPathProcessor::emitTransforms` for transform
`t` of group `i`. -/
def GrGLNormalPathProcessor.emitOne (E : Collaborators SkMatrix GrCoordTransform Builder)
    (i t : Nat) (ct : GrCoordTransform) (st : NormalEmit SkMatrix Builder) :
    NormalEmit SkMatrix Builder :=
  let varyingType := typeOf E ct
  let strVaryingName := "MatrixCoord" ++ ("_" ++ toString i ++ "_" ++ toString t)
  let added := E.addVarying st.pb strVaryingName varyingType
  let count : Int := (st.proc.fSeparableVaryingInfos.length : Int) + 1
  let varyingInfo : SeparableVaryingInfo :=
    { fType := varyingType
      fVariable := E.fInputsBack added.1
      fLocation := count - 1 }
  let infos := st.proc.fSeparableVaryingInfos ++ [varyingInfo]
  let fLocation : Int := varyingInfo.fLocation
  { proc :=
      { st.proc with
        fSeparableVaryingInfos := infos
        fInstalledTransforms :=
          modifyAt (modifyAt (fun e => { e with fHandle := ⟨fLocation⟩, fType := varyingType }) t)
            i st.proc.fInstalledTransforms }
    pb := added.1
    tout := modifyAt (fun a => a ++ [⟨added.2, varyingType⟩]) i st.tout }

/-- The inner loop of `GrGLNormalPathProcessor::emitTransforms` over the transforms of
group `i` still to be processed, the first of which has index `t`. -/
def GrGLNormalPathProcessor.emitCoords (E : Collaborators SkMatrix GrCoordTransform Builder)
    (i : Nat) : List GrCoordTransform → Nat → NormalEmit SkMatrix Builder →
      NormalEmit SkMatrix Builder
  | [], _, st => st
  | ct :: rest, t, st =>
    GrGLNormalPathProcessor.emitCoords E i rest (t + 1)
      (GrGLNormalPathProcessor.emitOne E i t ct st)

/-- The outer loop of `GrGLNormalPathProcessor::emitTransforms` over the groups still to
be processed, the first of which has index `i`. -/
def GrGLNormalPathProcessor.emitGroups (E : Collaborators SkMatrix GrCoordTransform Builder) :
    List (List GrCoordTransform) → Nat → NormalEmit SkMatrix Builder →
      NormalEmit SkMatrix Builder
  | [], _, st => st
  | coordTransforms :: rest, i, st =>
    let grown : NormalEmit SkMatrix Builder :=
      { st with
        proc :=
          { st.proc with
            fInstalledTransforms :=
              modifyAt (fun g => push_back_n g coordTransforms.length (Transform.default E)) i
                st.proc.fInstalledTransforms } }
    GrGLNormalPathProcessor.emitGroups E rest (i + 1)
      (GrGLNormalPathProcessor.emitCoords E i coordTransforms 0 grown)

/-- The function `GrGLNormalPathProcessor::emitTransforms`. -/
def GrGLNormalPathProcessor.emitTransforms (E : Collaborators SkMatrix GrCoordTransform Builder)
    (self : GrGLNormalPathProcessor SkMatrix) (pb : Builder)
    (tin : List (List GrCoordTransform)) (tout : TransformsOut) :
    NormalEmit SkMatrix Builder :=
  GrGLNormalPathProcessor.emitGroups E tin 0
    { proc :=
        { self with
          fInstalledTransforms := push_back_n self.fInstalledTransforms tin.length [] }
      pb := pb
      tout := push_back_n tout tin.length [] }

/-- The function `GrGLNormalPathProcessor::resolveSeparableVaryings`: every record gets
the location the device reports for its variable in program `programId`. -/
def GrGLNormalPathProcessor.resolveSeparableVaryings
    (E : Collaborators SkMatrix GrCoordTransform Builder)
    (self : GrGLNormalPathProcessor SkMatrix) (programId : Nat) :
    GrGLNormalPathProcessor SkMatrix :=
  { self with
    fSeparableVaryingInfos :=
      self.fSeparableVaryingInfos.map fun info =>
        { info with fLocation := E.GetProgramResourceLocation programId info.fVariable.c_str } }

/-- The array read `fSeparableVaryingInfos[h]` for an `int` index. -/
def infoAt (infos : List SeparableVaryingInfo) (h : Int) : Option SeparableVaryingInfo :=
  if h < 0 then none else infos[h.toNat]?

/-- The loop of `GrGLNormalPathProcessor::setTransformData`: `n` iterations are left, the
next one has index `t`; `transforms` is `fInstalledTransforms[index]` and `calls` the
device calls made so far. -/
def GrGLNormalPathProcessor.setTransformLoop [DecidableEq SkMatrix]
    (E : Collaborators SkMatrix GrCoordTransform Builder) (localMatrix : SkMatrix)
    (coordTransforms : List GrCoordTransform) (programID : Nat)
    (infos : List SeparableVaryingInfo) :
    Nat → Nat → List (Transform SkMatrix) → List (PathRenderingCall SkMatrix) →
      Option (List (Transform SkMatrix) × List (PathRenderingCall SkMatrix))
  | 0, _, transforms, calls => some (transforms, calls)
  | n + 1, t, transforms, calls =>
    match transforms[t]? with
    | none => none
    | some entry =>
      if entry.fHandle.isValid = false then none
      else
        match coordTransforms[t]? with
        | none => none
        | some ct =>
          let transform := E.GetTransformMatrix localMatrix ct
          if cheapEqualTo entry.fCurrentValue transform = true then
            GrGLNormalPathProcessor.setTransformLoop E localMatrix coordTransforms programID
              infos n (t + 1) transforms calls
          else
            let transforms1 := modifyAt (fun e => { e with fCurrentValue := transform }) t transforms
            match infoAt infos entry.fHandle.handle with
            | none => none
            | some fragmentInput =>
              if entry.fType = kVec2f_GrSLType ∨ entry.fType = kVec3f_GrSLType then
                let components := if entry.fType = kVec2f_GrSLType then 2 else 3
                GrGLNormalPathProcessor.setTransformLoop E localMatrix coordTransforms
                  programID infos n (t + 1) transforms1
                  (calls ++ [setProgramPathFragmentInputTransform programID
                    fragmentInput.fLocation GrGLenum.GR_GL_OBJECT_LINEAR components transform])
              else none

/-- The function `GrGLNormalPathProcessor::setTransformData`; `localMatrix` is
`primProc.localMatrix()`. -/
def GrGLNormalPathProcessor.setTransformData [DecidableEq SkMatrix]
    (E : Collaborators SkMatrix GrCoordTransform Builder)
    (self : GrGLNormalPathProcessor SkMatrix) (localMatrix : SkMatrix) (index : Nat)
    (coordTransforms : List GrCoordTransform) (programID : Nat) :
    Option (GrGLNormalPathProcessor SkMatrix × List (PathRenderingCall SkMatrix)) :=
  match self.fInstalledTransforms[index]? with
  | none => none
  | some transforms =>
    match GrGLNormalPathProcessor.setTransformLoop E localMatrix coordTransforms programID
        self.fSeparableVaryingInfos transforms.length 0 transforms [] with
    | none => none
    | some (transforms1, calls) =>
      some ({ self with
              fInstalledTransforms := modifyAt (fun _ => transforms1) index
                self.fInstalledTransforms },
            calls)

/-! ## Sequences of draws and closed forms used to state the properties -/

/-- The first index of the run of group `i`: the number of transforms of the groups
before it. -/
def groupStart (tin : List (List GrCoordTransform)) (i : Nat) : Nat :=
  ((tin.take i).map List.length).sum

/-- The arguments of one `setTransformData` call. -/
structure Draw (SkMatrix GrCoordTransform : Type) where
  localMatrix : SkMatrix
  index : Nat
  coordTransforms : List GrCoordTransform
  programID : Nat

/-- A sequence of `GrGLNormalPathProcessor::setTransformData` calls, one per draw record,
each on the state the previous one left; the result is the final state and the device
calls of each draw. -/
def GrGLNormalPathProcessor.drawAll [DecidableEq SkMatrix]
    (E : Collaborators SkMatrix GrCoordTransform Builder) :
    GrGLNormalPathProcessor SkMatrix → List (Draw SkMatrix GrCoordTransform) →
      Option (GrGLNormalPathProcessor SkMatrix × List (List (PathRenderingCall SkMatrix)))
  | s, [] => some (s, [])
  | s, d :: ds =>
    match GrGLNormalPathProcessor.setTransformData E s d.localMatrix d.index
        d.coordTransforms d.programID with
    | none => none
    | some (s1, calls) =>
      match GrGLNormalPathProcessor.drawAll E s1 ds with
      | none => none
      | some (s2, traces) => some (s2, calls :: traces)

/-- The handle and the type of each installed entry: what `setTransformData` reads of an
entry besides its cached matrix. -/
def skeleton (installed : List (List (Transform SkMatrix))) :
    List (List (ShaderVarHandle × GrSLType)) :=
  installed.map (List.map fun e => (e.fHandle, e.fType))

/-- The location stored for a handle, `0` when the handle names no record. -/
def locationOf (infos : List SeparableVaryingInfo) (h : ShaderVarHandle) : Int :=
  match infoAt infos h.handle with
  | some info => info.fLocation
  | none => 0

/-- The device call `setTransformData` makes for an entry with handle `h` and type `ty`
when it pushes the coordinate transform `ct`. -/
def pushCall (E : Collaborators SkMatrix GrCoordTransform Builder) (localMatrix : SkMatrix)
    (programID : Nat) (infos : List SeparableVaryingInfo) (h : ShaderVarHandle)
    (ty : GrSLType) (ct : GrCoordTransform) : PathRenderingCall SkMatrix :=
  setProgramPathFragmentInputTransform programID (locationOf infos h)
    GrGLenum.GR_GL_OBJECT_LINEAR (if ty = kVec2f_GrSLType then 2 else 3)
    (E.GetTransformMatrix localMatrix ct)

/-- The pushes of one draw, in order: one for each entry whose cached matrix differs from
the combined matrix of the transform at the same position. -/
def pushesOf [DecidableEq SkMatrix] (E : Collaborators SkMatrix GrCoordTransform Builder)
    (localMatrix : SkMatrix) (programID : Nat) (infos : List SeparableVaryingInfo)
    (transforms : List (Transform SkMatrix)) (coordTransforms : List GrCoordTransform) :
    List (PathRenderingCall SkMatrix) :=
  (List.zip transforms coordTransforms).filterMap fun p =>
    if p.1.fCurrentValue = E.GetTransformMatrix localMatrix p.2 then none
    else some (pushCall E localMatrix programID infos p.1.fHandle p.1.fType p.2)

/-- The pushes a draw would make if every matrix had changed, from the skeleton of the
group. -/
def allPushes (E : Collaborators SkMatrix GrCoordTransform Builder) (localMatrix : SkMatrix)
    (programID : Nat) (infos : List SeparableVaryingInfo)
    (group : List (ShaderVarHandle × GrSLType)) (coordTransforms : List GrCoordTransform) :
    List (PathRenderingCall SkMatrix) :=
  List.zipWith (fun e ct => pushCall E localMatrix programID infos e.1 e.2 ct) group
    coordTransforms

/-- The entries of a group after a draw: every cached matrix is the combined matrix of the
transform at the same position. -/
def cachedAfter (E : Collaborators SkMatrix GrCoordTransform Builder) (localMatrix : SkMatrix)
    (transforms : List (Transform SkMatrix)) (coordTransforms : List GrCoordTransform) :
    List (Transform SkMatrix) :=
  List.zipWith (fun e ct => { e with fCurrentValue := E.GetTransformMatrix localMatrix ct })
    transforms coordTransforms

/-- The state invariant under which `setTransformData` cannot fail: every installed entry
has a valid handle that names a record, and a two- or three-component type. -/
def WellFormed (s : GrGLNormalPathProcessor SkMatrix) : Prop :=
  ∀ group ∈ s.fInstalledTransforms, ∀ e ∈ group,
    e.fHandle.isValid = true ∧ (infoAt s.fSeparableVaryingInfos e.fHandle.handle).isSome = true ∧
      (e.fType = kVec2f_GrSLType ∨ e.fType = kVec3f_GrSLType)

/-- The coordinates the fixed-function strategy emits for the transforms of one group
whose run starts at `base`. -/
def legacyCoords (E : Collaborators SkMatrix GrCoordTransform Builder) :
    Int → List GrCoordTransform → List TransformedCoords
  | _, [] => []
  | base, ct :: rest =>
    ⟨E.GrGLSLTypeString (typeOf E ct) ++ "(gl_TexCoord[" ++ toString base ++ "])", typeOf E ct⟩ ::
      legacyCoords E (base + 1) rest

/-- The output array the fixed-function strategy fills for groups whose runs start at
`base`. -/
def legacyOut (E : Collaborators SkMatrix GrCoordTransform Builder) :
    Int → List (List GrCoordTransform) → TransformsOut
  | _, [] => []
  | base, g :: rest => legacyCoords E base g :: legacyOut E (base + g.length) rest

/-- The entries the fixed-function strategy installs for groups whose runs start at
`base`: one entry per group, holding the first index of the run. -/
def legacyInstalled (E : Collaborators SkMatrix GrCoordTransform Builder) :
    Int → List (List GrCoordTransform) → List (List (Transform SkMatrix))
  | _, [] => []
  | base, g :: rest =>
    [{ Transform.default E with fHandle := ⟨base⟩ }] :: legacyInstalled E (base + g.length) rest

/-- The entries the varying-based strategy installs for the transforms of one group when
`base` records exist already. -/
def normalEntries (E : Collaborators SkMatrix GrCoordTransform Builder) :
    Nat → List GrCoordTransform → List (Transform SkMatrix)
  | _, [] => []
  | base, ct :: rest =>
    { fHandle := ⟨(base : Int)⟩, fCurrentValue := E.InvalidMatrix, fType := typeOf E ct } ::
      normalEntries E (base + 1) rest

/-- The entries the varying-based strategy installs for a list of groups when `base`
records exist already. -/
def normalInstalled (E : Collaborators SkMatrix GrCoordTransform Builder) :
    Nat → List (List GrCoordTransform) → List (List (Transform SkMatrix))
  | _, [] => []
  | base, g :: rest => normalEntries E base g :: normalInstalled E (base + g.length) rest

/-- The state `a` has the handles, the types and the number of records of the state `b`:
what `emitTransforms` installs and later calls must keep. -/
def SameHandles (a b : GrGLNormalPathProcessor SkMatrix) : Prop :=
  skeleton a.fInstalledTransforms = skeleton b.fInstalledTransforms ∧
    a.fSeparableVaryingInfos.length = b.fSeparableVaryingInfos.length

/-- The name `emitTransforms` gives the varying of transform `t` of group `i`. -/
def varyingName (i t : Nat) : String :=
  "MatrixCoord" ++ ("_" ++ toString i ++ "_" ++ toString t)

/-- The builder after `addVarying` has been called for the transforms `cts` of group `i`,
the first of which has index `t`, each with its name and the type of its matrix. -/
def declareCoords (E : Collaborators SkMatrix GrCoordTransform Builder) (i : Nat) :
    List GrCoordTransform → Nat → Builder → Builder
  | [], _, pb => pb
  | ct :: rest, t, pb =>
    declareCoords E i rest (t + 1) (E.addVarying pb (varyingName i t) (typeOf E ct)).1

/-- The builder after `addVarying` has been called for every transform of the groups
`tin`, the first of which has index `i`. -/
def declareGroups (E : Collaborators SkMatrix GrCoordTransform Builder) :
    List (List GrCoordTransform) → Nat → Builder → Builder
  | [], _, pb => pb
  | g :: rest, i, pb => declareGroups E rest (i + 1) (declareCoords E i g 0 pb)

/-- The coordinates the varying-based strategy emits for the transforms `cts` of group `i`,
the first of which has index `t`, on the builder `pb`. -/
def emittedCoords (E : Collaborators SkMatrix GrCoordTransform Builder) (i : Nat) :
    List GrCoordTransform → Nat → Builder → List TransformedCoords
  | [], _, _ => []
  | ct :: rest, t, pb =>
    ⟨(E.addVarying pb (varyingName i t) (typeOf E ct)).2, typeOf E ct⟩ ::
      emittedCoords E i rest (t + 1) (E.addVarying pb (varyingName i t) (typeOf E ct)).1

/-- The records the varying-based strategy appends for the transforms `cts` of group `i`,
the first of which has index `t`, when `base` records exist already. -/
def emittedRecords (E : Collaborators SkMatrix GrCoordTransform Builder) (i : Nat) :
    List GrCoordTransform → Nat → Nat → Builder → List SeparableVaryingInfo
  | [], _, _, _ => []
  | ct :: rest, t, base, pb =>
    { fType := typeOf E ct
      fVariable := E.fInputsBack (E.addVarying pb (varyingName i t) (typeOf E ct)).1
      fLocation := (base : Int) } ::
      emittedRecords E i rest (t + 1) (base + 1)
        (E.addVarying pb (varyingName i t) (typeOf E ct)).1

/-- The output array the varying-based strategy fills for the groups `tin`, the first of
which has index `i`. -/
def emittedOut (E : Collaborators SkMatrix GrCoordTransform Builder) :
    List (List GrCoordTransform) → Nat → Builder → TransformsOut
  | [], _, _ => []
  | g :: rest, i, pb =>
    emittedCoords E i g 0 pb :: emittedOut E rest (i + 1) (declareCoords E i g 0 pb)

/-- The records the varying-based strategy appends for the groups `tin`, the first of
which has index `i`, when `base` records exist already. -/
def emittedAllRecords (E : Collaborators SkMatrix GrCoordTransform Builder) :
    List (List GrCoordTransform) → Nat → Nat → Builder → List SeparableVaryingInfo
  | [], _, _, _ => []
  | g :: rest, i, base, pb =>
    emittedRecords E i g 0 base pb ++
      emittedAllRecords E rest (i + 1) (base + g.length) (declareCoords E i g 0 pb)

end Strategies

/-! ## A concrete instance, for evaluating the model on explicit inputs -/

/-- A 3x3 matrix with integer cells, in the order of `SkMatrix`. -/
structure Mat3 where
  scaleX : Int
  skewX : Int
  transX : Int
  skewY : Int
  scaleY : Int
  transY : Int
  persp0 : Int
  persp1 : Int
  persp2 : Int
  deriving DecidableEq, Repr

/-- The identity matrix. -/
def Mat3.I : Mat3 := ⟨1, 0, 0, 0, 1, 0, 0, 0, 1⟩

/-- A translation. -/
def Mat3.translate (dx dy : Int) : Mat3 := ⟨1, 0, dx, 0, 1, dy, 0, 0, 1⟩

/-- A matrix with a perspective term. -/
def Mat3.persp : Mat3 := ⟨1, 0, 0, 0, 1, 0, 1, 0, 1⟩

/-- A concrete set of collaborators: coordinate transforms are their matrices, taken in a
coordinate set to which the local matrix does not apply; the builder is the list of
fragment inputs declared so far and names the input of a varying `v` followed by the
varying's name; the device reports location `loc name` for the input `name`. -/
def demo (loc : String → Int) : Collaborators Mat3 Mat3 (List GrGLShaderVar) :=
  { hasPerspective := fun m => decide (m.persp0 ≠ 0 ∨ m.persp1 ≠ 0 ∨ m.persp2 ≠ 1)
    InvalidMatrix := ⟨-1, -1, -1, -1, -1, -1, -1, -1, -1⟩
    getMatrix := fun ct => ct
    GetTransformMatrix := fun _ ct => ct
    GrGLSLTypeString := fun ty =>
      match ty with
      | kVec2f_GrSLType => "vec2"
      | kVec3f_GrSLType => "vec3"
      | kVec4f_GrSLType => "vec4"
      | kVoid_GrSLType => "void"
    addVarying := fun pb name ty => (pb ++ [⟨ty, "v" ++ name⟩], "v" ++ name)
    fInputsBack := fun pb => pb.getLastD ⟨kVoid_GrSLType, ""⟩
    GetProgramResourceLocation := fun _ name => loc name }

/-- Three groups of coordinate transforms, with two, no and one transform. -/
def demoGroups : List (List Mat3) := [[Mat3.I, Mat3.persp], [], [Mat3.I]]

/-- Two draws of group `0` with the same two matrices, for program `1`. -/
def demoDraws : List (Draw Mat3 Mat3) :=
  [⟨Mat3.I, 0, [Mat3.translate 1 2, Mat3.I], 1⟩, ⟨Mat3.I, 0, [Mat3.translate 1 2, Mat3.I], 1⟩]

/-- A freshly constructed varying-based processor. -/
def GrGLNormalPathProcessor.new (SkMatrix : Type) (GrColor_ILLEGAL : GrColor) :
    GrGLNormalPathProcessor SkMatrix :=
  { toGrGLPathProcessor := GrGLPathProcessor.new GrColor_ILLEGAL
    fInstalledTransforms := []
    fSeparableVaryingInfos := [] }

/-- Modelled from the spec: the constructor of the fixed-function processor is in the
class header, which is not part of the sources. A new processor has no
texture-coordinate sets allocated. -/
def GrGLLegacyPathProcessor.new (SkMatrix : Type) (GrColor_ILLEGAL : GrColor) :
    GrGLLegacyPathProcessor SkMatrix :=
  { toGrGLPathProcessor := GrGLPathProcessor.new GrColor_ILLEGAL
    fInstalledTransforms := []
    fTexCoordSetCnt := 0 }

end GrGL

/-! # Properties -/

namespace GrGL

open GrSLType PathTexGenComponents PathRenderingCall

/-! ## Key generation and colour push -/

theorem key_word_eq (c v : Nat) (hc : c < 2 ^ 16) : c ||| v <<< 16 = 2 ^ 16 * v + c := by
  rw [Nat.shiftLeft_eq, Nat.or_comm, Nat.mul_comm v, Nat.mul_add_lt_is_or hc]

theorem key_word_mod (c v : Nat) (hc : c < 2 ^ 16) (hv : v < 2 ^ 16) :
    (c ||| v <<< 16) % 2 ^ 32 = c ||| v <<< 16 := by
  apply Nat.mod_eq_of_lt
  rw [key_word_eq c v hc]
  have p16 : (2 : Nat) ^ 16 = 65536 := by norm_num
  have p32 : (2 : Nat) ^ 32 = 4294967296 := by norm_num
  rw [p16] at hc hv ⊢
  rw [p32]
  omega

theorem key_word_inj (c v c' v' : Nat) (hc : c < 2 ^ 16) (hc' : c' < 2 ^ 16) :
    c ||| v <<< 16 = c' ||| v' <<< 16 ↔ c = c' ∧ v = v' := by
  rw [key_word_eq c v hc, key_word_eq c' v' hc']
  have p16 : (2 : Nat) ^ 16 = 65536 := by norm_num
  rw [p16] at hc hc' ⊢
  omega

/-- Claim C1. `GenKey` appends exactly one word to the key, the colour mode OR-ed with the
coverage mode shifted left by 16, and (for modes that are enumerator values, below `2^16`)
two batch trackers give the same key exactly when their colour modes are equal and their
coverage modes are equal. -/
theorem GenKey_one_word_injective (bt bt' : PathBatchTracker) (b : GrProcessorKeyBuilder)
    (hc : bt.fInputColorType < 2 ^ 16) (hv : bt.fInputCoverageType < 2 ^ 16)
    (hc' : bt'.fInputColorType < 2 ^ 16) (hv' : bt'.fInputCoverageType < 2 ^ 16) :
    GrGLPathProcessor.GenKey bt b
        = b ++ [bt.fInputColorType ||| bt.fInputCoverageType <<< 16] ∧
      (GrGLPathProcessor.GenKey bt b = GrGLPathProcessor.GenKey bt' b ↔
        bt.fInputColorType = bt'.fInputColorType ∧
          bt.fInputCoverageType = bt'.fInputCoverageType) := by
  have m := key_word_mod bt.fInputColorType bt.fInputCoverageType hc hv
  have m' := key_word_mod bt'.fInputColorType bt'.fInputCoverageType hc' hv'
  have i := key_word_inj bt.fInputColorType bt.fInputCoverageType bt'.fInputColorType
    bt'.fInputCoverageType hc hc'
  refine ⟨?_, ?_⟩
  · simp only [GrGLPathProcessor.GenKey, GrProcessorKeyBuilder.add32, m]
  · simp only [GrGLPathProcessor.GenKey, GrProcessorKeyBuilder.add32, m, m',
      List.append_cancel_left_eq, List.cons.injEq, and_true]
    exact i

/-- Claim C1, at the key of (colour mode 2, coverage mode 0) against the key of (colour
mode 1, coverage mode 0). -/
theorem GenKey_one_word_injective_witness :
    GrGLPathProcessor.GenKey ⟨2, 0, 0⟩ [] = [] ++ [2 ||| 0 <<< 16] ∧
      (GrGLPathProcessor.GenKey ⟨2, 0, 0⟩ [] = GrGLPathProcessor.GenKey ⟨1, 0, 7⟩ [] ↔
        (2 : Nat) = 1 ∧ (0 : Nat) = 0) :=
  GenKey_one_word_injective ⟨2, 0, 0⟩ ⟨1, 0, 7⟩ [] (by decide) (by decide) (by decide)
    (by decide)

/-- Claim C2. `setData` makes a device call exactly when the colour mode is uniform and
the requested colour differs from the cached one: then it is the single four-float push
of the requested colour to the colour uniform handle and the cached colour becomes the
requested colour; otherwise there is no device call and the state is unchanged. -/
theorem setData_pushes_iff_uniform_and_changed {F : Type} (kUniform_GrGPInput : GrGPInput)
    (GrColorToRGBAFloat : GrColor → F) (self : GrGLPathProcessor) (bt : PathBatchTracker) :
    ((kUniform_GrGPInput = bt.fInputColorType ∧ bt.fColor ≠ self.fColor) ∧
        GrGLPathProcessor.setData kUniform_GrGPInput GrColorToRGBAFloat self bt
          = ({ fColorUniform := self.fColorUniform, fColor := bt.fColor },
              [PdmanCall.set4fv self.fColorUniform 1 (GrColorToRGBAFloat bt.fColor)])) ∨
      (¬ (kUniform_GrGPInput = bt.fInputColorType ∧ bt.fColor ≠ self.fColor) ∧
        GrGLPathProcessor.setData kUniform_GrGPInput GrColorToRGBAFloat self bt
          = (self, [])) := by
  by_cases h : kUniform_GrGPInput = bt.fInputColorType ∧ bt.fColor ≠ self.fColor
  · exact Or.inl ⟨h, by simp only [GrGLPathProcessor.setData, if_pos h]⟩
  · exact Or.inr ⟨h, by simp only [GrGLPathProcessor.setData, if_neg h]⟩

/-- Claim C3, as stated, fails: on a fresh processor in uniform-colour mode, requesting
the sentinel colour itself (`0x00FFFFFF`) twice makes no device call at all. -/
theorem setData_fresh_sentinel_never_pushes :
    (GrGLPathProcessor.setData 2 (fun c => c) (GrGLPathProcessor.new 0x00FFFFFF)
        ⟨2, 0, 0x00FFFFFF⟩).2 = [] ∧
      (GrGLPathProcessor.setData 2 (fun c => c)
        (GrGLPathProcessor.setData 2 (fun c => c) (GrGLPathProcessor.new 0x00FFFFFF)
          ⟨2, 0, 0x00FFFFFF⟩).1 ⟨2, 0, 0x00FFFFFF⟩).2 = [] := by
  decide

/-- Claim C3, amended. On a processor whose cached colour is the sentinel, in
uniform-colour mode, for every requested colour other than the sentinel, two `setData`
calls in a row with that colour make exactly one device call: the first call pushes the
colour, the second makes no call. -/
theorem setData_twice_pushes_once {F : Type} (kUniform_GrGPInput : GrGPInput)
    (GrColorToRGBAFloat : GrColor → F) (GrColor_ILLEGAL : GrColor) (u : Int)
    (coverage : GrGPInput) (color : GrColor) (h : color ≠ GrColor_ILLEGAL) :
    (GrGLPathProcessor.setData kUniform_GrGPInput GrColorToRGBAFloat
        { GrGLPathProcessor.new GrColor_ILLEGAL with fColorUniform := u }
        ⟨kUniform_GrGPInput, coverage, color⟩).2
        = [PdmanCall.set4fv u 1 (GrColorToRGBAFloat color)] ∧
      (GrGLPathProcessor.setData kUniform_GrGPInput GrColorToRGBAFloat
        (GrGLPathProcessor.setData kUniform_GrGPInput GrColorToRGBAFloat
          { GrGLPathProcessor.new GrColor_ILLEGAL with fColorUniform := u }
          ⟨kUniform_GrGPInput, coverage, color⟩).1
        ⟨kUniform_GrGPInput, coverage, color⟩).2 = [] := by
  simp [GrGLPathProcessor.setData, GrGLPathProcessor.new, h]

/-- Claim C3, amended, at the sentinel `0x00FFFFFF` and the requested colour
`0xFF0000FF`. -/
theorem setData_twice_pushes_once_witness :
    (GrGLPathProcessor.setData 2 (fun c => c)
        { GrGLPathProcessor.new 0x00FFFFFF with fColorUniform := 3 }
        ⟨2, 0, 0xFF0000FF⟩).2 = [PdmanCall.set4fv 3 1 0xFF0000FF] ∧
      (GrGLPathProcessor.setData 2 (fun c => c)
        (GrGLPathProcessor.setData 2 (fun c => c)
          { GrGLPathProcessor.new 0x00FFFFFF with fColorUniform := 3 }
          ⟨2, 0, 0xFF0000FF⟩).1 ⟨2, 0, 0xFF0000FF⟩).2 = [] :=
  setData_twice_pushes_once 2 (fun c => c) 0x00FFFFFF 3 0 0xFF0000FF (by decide)

/-! ## Array updates -/

theorem modifyAt_append_cons {α : Type} (f : α → α) (pre : List α) (x : α) (suf : List α) :
    modifyAt f pre.length (pre ++ x :: suf) = pre ++ f x :: suf := by
  induction pre with
  | nil => rfl
  | cons a pre ih => simp [modifyAt, ih]

theorem groupStart_zero {T : Type} (tin : List (List T)) : groupStart tin 0 = 0 := by
  simp [groupStart]

theorem groupStart_cons_succ {T : Type} (g : List T) (tin : List (List T)) (i : Nat) :
    groupStart (g :: tin) (i + 1) = g.length + groupStart tin i := by
  simp [groupStart]

theorem groupStart_length {T : Type} (tin : List (List T)) :
    groupStart tin tin.length = (tin.map List.length).sum := by
  simp [groupStart]

theorem groupStart_mono {T : Type} (tin : List (List T)) (i j : Nat) (g : List T)
    (hg : tin[i]? = some g) (hij : i < j) :
    groupStart tin i + g.length ≤ groupStart tin j := by
  induction tin generalizing i j with
  | nil => simp at hg
  | cons a tin ih =>
    obtain ⟨j, rfl⟩ : ∃ k, j = k + 1 := ⟨j - 1, by omega⟩
    cases i with
    | zero =>
      simp only [List.getElem?_cons_zero, Option.some.injEq] at hg
      subst hg
      rw [groupStart_zero, groupStart_cons_succ]
      omega
    | succ i =>
      simp only [List.getElem?_cons_succ] at hg
      rw [groupStart_cons_succ, groupStart_cons_succ]
      have := ih i j hg (by omega)
      omega

/-! ## The fixed-function strategy -/

section Legacy

variable {SkMatrix GrCoordTransform Builder : Type}

theorem legacy_emitCoords_eq (E : Collaborators SkMatrix GrCoordTransform Builder)
    (g : List GrCoordTransform) (base : Int) (pre : TransformsOut)
    (acc : List TransformedCoords) (suf : TransformsOut) :
    GrGLLegacyPathProcessor.emitCoords E pre.length g base (pre ++ acc :: suf)
      = pre ++ (acc ++ legacyCoords E base g) :: suf := by
  induction g generalizing base acc with
  | nil => simp [GrGLLegacyPathProcessor.emitCoords, legacyCoords]
  | cons ct rest ih =>
    simp only [GrGLLegacyPathProcessor.emitCoords, legacyCoords, modifyAt_append_cons]
    rw [ih]
    simp

theorem legacy_emitGroups_eq (E : Collaborators SkMatrix GrCoordTransform Builder)
    (tin : List (List GrCoordTransform)) (self : GrGLLegacyPathProcessor SkMatrix)
    (preG : List (List (Transform SkMatrix))) (preT : TransformsOut)
    (hG : self.fInstalledTransforms = preG ++ List.replicate tin.length [])
    (hT : preT.length = preG.length) :
    GrGLLegacyPathProcessor.emitGroups E tin preG.length
        (self, preT ++ List.replicate tin.length [])
      = ({ self with
            fInstalledTransforms := preG ++ legacyInstalled E self.fTexCoordSetCnt tin
            fTexCoordSetCnt := self.fTexCoordSetCnt + ((tin.map List.length).sum : Nat) },
          preT ++ legacyOut E self.fTexCoordSetCnt tin) := by
  induction tin generalizing self preG preT with
  | nil =>
    simp only [GrGLLegacyPathProcessor.emitGroups, legacyInstalled, legacyOut, List.map_nil,
      List.sum_nil, List.length_nil, List.replicate_zero, List.append_nil] at hG ⊢
    cases self
    simp_all
  | cons g rest ih =>
    simp only [GrGLLegacyPathProcessor.emitGroups, GrGLLegacyPathProcessor.addTexCoordSets,
      List.length_cons, List.replicate_succ, hG, modifyAt_append_cons, push_back_n,
      List.nil_append, List.replicate_one, modifyAt]
    have e1 := legacy_emitCoords_eq E g self.fTexCoordSetCnt preT [] (List.replicate rest.length [])
    rw [hT] at e1
    rw [e1]
    simp only [List.replicate_zero, List.nil_append]
    have step := ih
      { self with
        fTexCoordSetCnt := self.fTexCoordSetCnt + (g.length : Int)
        fInstalledTransforms :=
          (preG ++ [[{ Transform.default E with fHandle := ⟨self.fTexCoordSetCnt⟩ }]]) ++
            List.replicate rest.length [] }
      (preG ++ [[{ Transform.default E with fHandle := ⟨self.fTexCoordSetCnt⟩ }]])
      (preT ++ [legacyCoords E self.fTexCoordSetCnt g]) rfl (by simp [hT])
    simp only [List.length_append, List.length_singleton, List.append_assoc,
      List.singleton_append, List.nil_append] at step
    rw [step]
    simp only [legacyInstalled, legacyOut, List.map_cons, List.sum_cons, Nat.cast_add]
    refine Prod.ext ?_ rfl
    simp only [add_assoc]

theorem legacy_emitTransforms_eq (E : Collaborators SkMatrix GrCoordTransform Builder)
    (illegal : GrColor) (tin : List (List GrCoordTransform)) :
    GrGLLegacyPathProcessor.emitTransforms E (GrGLLegacyPathProcessor.new SkMatrix illegal) tin []
      = ({ GrGLLegacyPathProcessor.new SkMatrix illegal with
            fInstalledTransforms := legacyInstalled E 0 tin
            fTexCoordSetCnt := ((tin.map List.length).sum : Nat) },
          legacyOut E 0 tin) := by
  have h := legacy_emitGroups_eq E tin
    { GrGLLegacyPathProcessor.new SkMatrix illegal with
      fInstalledTransforms := [] ++ List.replicate tin.length [] } [] [] rfl rfl
  simp only [List.length_nil, List.nil_append] at h
  simp only [GrGLLegacyPathProcessor.emitTransforms, push_back_n, List.nil_append]
  rw [show (GrGLLegacyPathProcessor.new SkMatrix illegal).fInstalledTransforms = [] from rfl]
  simp only [List.nil_append]
  rw [h]
  simp [GrGLLegacyPathProcessor.new]

theorem legacy_count (E : Collaborators SkMatrix GrCoordTransform Builder)
    (tin : List (List GrCoordTransform)) (i : Nat)
    (st : GrGLLegacyPathProcessor SkMatrix × TransformsOut) :
    (GrGLLegacyPathProcessor.emitGroups E tin i st).1.fTexCoordSetCnt
      = st.1.fTexCoordSetCnt + ((tin.map List.length).sum : Nat) := by
  induction tin generalizing i st with
  | nil => simp [GrGLLegacyPathProcessor.emitGroups]
  | cons g rest ih =>
    obtain ⟨self, tout⟩ := st
    simp only [GrGLLegacyPathProcessor.emitGroups, GrGLLegacyPathProcessor.addTexCoordSets]
    rw [ih]
    simp only [List.map_cons, List.sum_cons, Nat.cast_add]
    omega

theorem legacyCoords_length (E : Collaborators SkMatrix GrCoordTransform Builder)
    (g : List GrCoordTransform) (base : Int) : (legacyCoords E base g).length = g.length := by
  induction g generalizing base with
  | nil => rfl
  | cons ct rest ih => simp [legacyCoords, ih]

theorem legacyCoords_getElem? (E : Collaborators SkMatrix GrCoordTransform Builder)
    (g : List GrCoordTransform) (base : Int) (t : Nat) (ct : GrCoordTransform)
    (h : g[t]? = some ct) :
    (legacyCoords E base g)[t]?
      = some ⟨E.GrGLSLTypeString (typeOf E ct) ++ "(gl_TexCoord[" ++ toString (base + t) ++ "])",
          typeOf E ct⟩ := by
  induction g generalizing base t with
  | nil => simp at h
  | cons c rest ih =>
    cases t with
    | zero =>
      simp only [List.getElem?_cons_zero, Option.some.injEq] at h
      subst h
      simp [legacyCoords]
    | succ t =>
      simp only [List.getElem?_cons_succ] at h
      simp only [legacyCoords, List.getElem?_cons_succ]
      rw [ih (base + 1) t h]
      have e : base + 1 + (t : Int) = base + ((t + 1 : Nat) : Int) := by push_cast; ring
      rw [e]

theorem legacyOut_getElem? (E : Collaborators SkMatrix GrCoordTransform Builder)
    (tin : List (List GrCoordTransform)) (base : Int) (i : Nat) (g : List GrCoordTransform)
    (h : tin[i]? = some g) :
    (legacyOut E base tin)[i]? = some (legacyCoords E (base + (groupStart tin i : Nat)) g) := by
  induction tin generalizing base i with
  | nil => simp at h
  | cons a rest ih =>
    cases i with
    | zero =>
      simp only [List.getElem?_cons_zero, Option.some.injEq] at h
      subst h
      simp [legacyOut, groupStart_zero]
    | succ i =>
      simp only [List.getElem?_cons_succ] at h
      simp only [legacyOut, List.getElem?_cons_succ]
      rw [ih (base + a.length) i h, groupStart_cons_succ]
      have e : base + (a.length : Int) + ((groupStart rest i : Nat) : Int)
          = base + ((a.length + groupStart rest i : Nat) : Int) := by push_cast; ring
      rw [e]

theorem legacyInstalled_getElem? (E : Collaborators SkMatrix GrCoordTransform Builder)
    (tin : List (List GrCoordTransform)) (base : Int) (i : Nat) (g : List GrCoordTransform)
    (h : tin[i]? = some g) :
    (legacyInstalled E base tin)[i]?
      = some [{ Transform.default E with fHandle := ⟨base + (groupStart tin i : Nat)⟩ }] := by
  induction tin generalizing base i with
  | nil => simp at h
  | cons a rest ih =>
    cases i with
    | zero => simp [legacyInstalled, groupStart_zero]
    | succ i =>
      simp only [List.getElem?_cons_succ] at h
      simp only [legacyInstalled, List.getElem?_cons_succ]
      rw [ih (base + a.length) i h, groupStart_cons_succ]
      have e : base + (a.length : Int) + ((groupStart rest i : Nat) : Int)
          = base + ((a.length + groupStart rest i : Nat) : Int) := by push_cast; ring
      rw [e]

theorem texGenLoop_length (E : Collaborators SkMatrix GrCoordTransform Builder)
    (lm : SkMatrix) (cts : List GrCoordTransform) (base : Int) :
    (GrGLLegacyPathProcessor.texGenLoop E lm cts base).length = cts.length := by
  induction cts generalizing base with
  | nil => rfl
  | cons ct rest ih => simp [GrGLLegacyPathProcessor.texGenLoop, ih]

theorem texGenLoop_getElem? (E : Collaborators SkMatrix GrCoordTransform Builder)
    (lm : SkMatrix) (cts : List GrCoordTransform) (base : Int) (t : Nat)
    (ct : GrCoordTransform) (h : cts[t]? = some ct) :
    (GrGLLegacyPathProcessor.texGenLoop E lm cts base)[t]?
      = some (enablePathTexGen (base + t)
          (if E.hasPerspective (E.GetTransformMatrix lm ct) then kSTR_PathTexGenComponents
            else kST_PathTexGenComponents)
          (E.GetTransformMatrix lm ct)) := by
  induction cts generalizing base t with
  | nil => simp at h
  | cons c rest ih =>
    cases t with
    | zero =>
      simp only [List.getElem?_cons_zero, Option.some.injEq] at h
      subst h
      simp [GrGLLegacyPathProcessor.texGenLoop]
    | succ t =>
      simp only [List.getElem?_cons_succ] at h
      simp only [GrGLLegacyPathProcessor.texGenLoop, List.getElem?_cons_succ]
      rw [ih (base + 1) t h]
      have e : base + 1 + (t : Int) = base + ((t + 1 : Nat) : Int) := by push_cast; ring
      rw [e]

/-- Claim C5. After `emitTransforms` on a processor with no texture-coordinate sets
allocated, `didSetData` flushes an active-set count equal to the sum of the transform
counts of the groups; on any processor the count grows by that sum. -/
theorem legacy_flushed_count_is_sum (E : Collaborators SkMatrix GrCoordTransform Builder)
    (illegal : GrColor) (self : GrGLLegacyPathProcessor SkMatrix)
    (tin : List (List GrCoordTransform)) (tout : TransformsOut) :
    GrGLLegacyPathProcessor.didSetData
        (GrGLLegacyPathProcessor.emitTransforms E (GrGLLegacyPathProcessor.new SkMatrix illegal)
          tin tout).1
        = [flushPathTexGenSettings (((tin.map List.length).sum : Nat) : Int)] ∧
      GrGLLegacyPathProcessor.didSetData (GrGLLegacyPathProcessor.emitTransforms E self tin tout).1
        = [flushPathTexGenSettings
            (self.fTexCoordSetCnt + (((tin.map List.length).sum : Nat) : Int))] := by
  constructor
  · simp only [GrGLLegacyPathProcessor.didSetData, GrGLLegacyPathProcessor.emitTransforms,
      legacy_count]
    simp [GrGLLegacyPathProcessor.new]
  · simp only [GrGLLegacyPathProcessor.didSetData, GrGLLegacyPathProcessor.emitTransforms,
      legacy_count]

/-- Claim C9. After `emitTransforms` on a fresh fixed-function processor, for every group
`i` with transforms `g`: the output array of the group has one expression per transform
and the expression of transform `t` reads `gl_TexCoord` at index `groupStart tin i + t`,
the transform counts of the groups before `i` plus `t`; the group records one entry, whose
handle is the first index of its run; the run ends before the run of any later group
starts; and `setTransformData` for group `i` with as many transforms makes one
`enablePathTexGen` call per transform, in order, the call of transform `t` on index
`groupStart tin i + t`, with three-component generation exactly when the combined matrix
has a perspective term. -/
theorem legacy_contiguous_runs (E : Collaborators SkMatrix GrCoordTransform Builder)
    (illegal : GrColor) (tin : List (List GrCoordTransform)) (i : Nat)
    (g : List GrCoordTransform) (hg : tin[i]? = some g) :
    ((GrGLLegacyPathProcessor.emitTransforms E (GrGLLegacyPathProcessor.new SkMatrix illegal)
        tin []).2[i]?.map List.length = some g.length) ∧
      (∀ (t : Nat) (ct : GrCoordTransform), g[t]? = some ct →
        ((GrGLLegacyPathProcessor.emitTransforms E (GrGLLegacyPathProcessor.new SkMatrix illegal)
          tin []).2[i]?.bind fun coords => coords[t]?)
          = some (TransformedCoords.mk
              (E.GrGLSLTypeString (typeOf E ct) ++ "(gl_TexCoord[" ++
                toString ((groupStart tin i + t : Nat) : Int) ++ "])")
              (typeOf E ct))) ∧
      ((GrGLLegacyPathProcessor.emitTransforms E (GrGLLegacyPathProcessor.new SkMatrix illegal)
        tin []).1.fInstalledTransforms[i]?
          = some [{ Transform.default E with fHandle := ⟨(groupStart tin i : Nat)⟩ }]) ∧
      (∀ j, i < j → groupStart tin i + g.length ≤ groupStart tin j) ∧
      (∀ (lm : SkMatrix) (cts : List GrCoordTransform), cts.length = g.length →
        ∃ calls,
          GrGLLegacyPathProcessor.setTransformData E
              (GrGLLegacyPathProcessor.emitTransforms E
                (GrGLLegacyPathProcessor.new SkMatrix illegal) tin []).1 lm i cts = some calls ∧
            calls.length = g.length ∧
            ∀ (t : Nat) (ct : GrCoordTransform), cts[t]? = some ct →
              calls[t]? = some (enablePathTexGen ((groupStart tin i + t : Nat) : Int)
                (if E.hasPerspective (E.GetTransformMatrix lm ct) then kSTR_PathTexGenComponents
                  else kST_PathTexGenComponents)
                (E.GetTransformMatrix lm ct))) := by
  rw [legacy_emitTransforms_eq]
  have hO := legacyOut_getElem? E tin 0 i g hg
  have hI := legacyInstalled_getElem? E tin 0 i g hg
  simp only [zero_add] at hO hI
  refine ⟨?_, ?_, ?_, ?_, ?_⟩
  · simp [hO, legacyCoords_length]
  · intro t ct ht
    simp only [hO, Option.some_bind]
    rw [legacyCoords_getElem? E g _ t ct ht]
    simp
  · exact hI
  · intro j hij
    exact groupStart_mono tin i j g hg hij
  · intro lm cts hlen
    refine ⟨GrGLLegacyPathProcessor.texGenLoop E lm cts (groupStart tin i : Nat), ?_, ?_, ?_⟩
    · simp [GrGLLegacyPathProcessor.setTransformData, hI, ShaderVarHandle.handle]
    · rw [texGenLoop_length, hlen]
    · intro t ct ht
      rw [texGenLoop_getElem? E lm cts _ t ct ht]
      simp

/-- Claim C9, on three groups with two, no and one transform: group `2` is emitted and
drawn on texture-coordinate set `2`. -/
theorem legacy_contiguous_runs_witness :
    ((GrGLLegacyPathProcessor.emitTransforms (demo fun _ => 0)
        (GrGLLegacyPathProcessor.new Mat3 0x00FFFFFF)
        [[Mat3.I, Mat3.persp], [], [Mat3.persp]] []).2[2]?.map List.length = some 1) ∧
      (GrGLLegacyPathProcessor.setTransformData (demo fun _ => 0)
        (GrGLLegacyPathProcessor.emitTransforms (demo fun _ => 0)
          (GrGLLegacyPathProcessor.new Mat3 0x00FFFFFF)
          [[Mat3.I, Mat3.persp], [], [Mat3.persp]] []).1 Mat3.I 2 [Mat3.I]
        = some [enablePathTexGen 2 kST_PathTexGenComponents Mat3.I]) := by
  have h := legacy_contiguous_runs (demo fun _ => 0) 0x00FFFFFF
    [[Mat3.I, Mat3.persp], [], [Mat3.persp]] 2 [Mat3.persp] rfl
  refine ⟨h.1, ?_⟩
  decide

end Legacy

/-! ## The varying-based strategy: emission -/

section Normal

variable {SkMatrix GrCoordTransform Builder : Type}

theorem emitOne_installed (E : Collaborators SkMatrix GrCoordTransform Builder) (i t : Nat)
    (ct : GrCoordTransform) (st : NormalEmit SkMatrix Builder) :
    (GrGLNormalPathProcessor.emitOne E i t ct st).proc.fInstalledTransforms
      = modifyAt (modifyAt (fun e =>
          { e with
            fHandle := ⟨(st.proc.fSeparableVaryingInfos.length : Int)⟩
            fType := typeOf E ct }) t) i st.proc.fInstalledTransforms := by
  simp [GrGLNormalPathProcessor.emitOne]

theorem emitOne_infos (E : Collaborators SkMatrix GrCoordTransform Builder) (i t : Nat)
    (ct : GrCoordTransform) (st : NormalEmit SkMatrix Builder) :
    ∃ v, (GrGLNormalPathProcessor.emitOne E i t ct st).proc.fSeparableVaryingInfos
      = st.proc.fSeparableVaryingInfos ++
          [{ fType := typeOf E ct, fVariable := v,
             fLocation := (st.proc.fSeparableVaryingInfos.length : Int) }] :=
  ⟨E.fInputsBack (E.addVarying st.pb ("MatrixCoord" ++ ("_" ++ toString i ++ "_" ++ toString t))
      (typeOf E ct)).1, by simp [GrGLNormalPathProcessor.emitOne]⟩

theorem emitOne_tout (E : Collaborators SkMatrix GrCoordTransform Builder) (i t : Nat)
    (ct : GrCoordTransform) (st : NormalEmit SkMatrix Builder) :
    ∃ name, (GrGLNormalPathProcessor.emitOne E i t ct st).tout
      = modifyAt (fun a => a ++ [⟨name, typeOf E ct⟩]) i st.tout :=
  ⟨(E.addVarying st.pb ("MatrixCoord" ++ ("_" ++ toString i ++ "_" ++ toString t))
      (typeOf E ct)).2, by simp [GrGLNormalPathProcessor.emitOne]⟩

theorem emitOne_base (E : Collaborators SkMatrix GrCoordTransform Builder) (i t : Nat)
    (ct : GrCoordTransform) (st : NormalEmit SkMatrix Builder) :
    (GrGLNormalPathProcessor.emitOne E i t ct st).proc.toGrGLPathProcessor
      = st.proc.toGrGLPathProcessor := by
  simp [GrGLNormalPathProcessor.emitOne]

theorem normal_emitCoords_spec (E : Collaborators SkMatrix GrCoordTransform Builder)
    (g : List GrCoordTransform) (st : NormalEmit SkMatrix Builder)
    (preG : List (List (Transform SkMatrix))) (done : List (Transform SkMatrix))
    (sufG : List (List (Transform SkMatrix))) (preT : TransformsOut)
    (acc : List TransformedCoords) (sufT : TransformsOut)
    (hG : st.proc.fInstalledTransforms
      = preG ++ (done ++ List.replicate g.length (Transform.default E)) :: sufG)
    (hT : st.tout = preT ++ acc :: sufT) (hlen : preT.length = preG.length) :
    (GrGLNormalPathProcessor.emitCoords E preG.length g done.length st).proc.fInstalledTransforms
        = preG ++ (done ++ normalEntries E st.proc.fSeparableVaryingInfos.length g) :: sufG ∧
      (GrGLNormalPathProcessor.emitCoords E preG.length g done.length st).proc.toGrGLPathProcessor
        = st.proc.toGrGLPathProcessor ∧
      (∃ recs,
        (GrGLNormalPathProcessor.emitCoords E preG.length g done.length
            st).proc.fSeparableVaryingInfos = st.proc.fSeparableVaryingInfos ++ recs ∧
          recs.map (fun r => r.fType) = g.map (typeOf E)) ∧
      (∃ coords,
        (GrGLNormalPathProcessor.emitCoords E preG.length g done.length st).tout
            = preT ++ (acc ++ coords) :: sufT ∧
          coords.map (fun c => c.fType) = g.map (typeOf E)) := by
  induction g generalizing st done acc with
  | nil =>
    simp only [GrGLNormalPathProcessor.emitCoords, normalEntries, List.length_nil,
      List.replicate_zero, List.append_nil] at hG ⊢
    exact ⟨hG, trivial, ⟨[], by simp⟩, ⟨[], by simp [hT]⟩⟩
  | cons ct rest ih =>
    obtain ⟨v, hv⟩ := emitOne_infos E preG.length done.length ct st
    obtain ⟨name, hn⟩ := emitOne_tout E preG.length done.length ct st
    have hG1 : (GrGLNormalPathProcessor.emitOne E preG.length done.length ct
        st).proc.fInstalledTransforms
        = preG ++ ((done ++ [{ fHandle := ⟨(st.proc.fSeparableVaryingInfos.length : Int)⟩
                               fCurrentValue := E.InvalidMatrix
                               fType := typeOf E ct }]) ++
            List.replicate rest.length (Transform.default E)) :: sufG := by
      rw [emitOne_installed, hG]
      simp only [List.length_cons, List.replicate_succ, modifyAt_append_cons,
        List.append_assoc, List.singleton_append]
      rfl
    have hT1 : (GrGLNormalPathProcessor.emitOne E preG.length done.length ct st).tout
        = preT ++ (acc ++ [⟨name, typeOf E ct⟩]) :: sufT := by
      rw [hn, hT, ← hlen, modifyAt_append_cons]
    have step := ih (GrGLNormalPathProcessor.emitOne E preG.length done.length ct st) _ _
      hG1 hT1
    simp only [List.length_append, List.length_singleton] at step
    obtain ⟨s1, s2, ⟨recs, s3, s4⟩, ⟨coords, s5, s6⟩⟩ := step
    simp only [GrGLNormalPathProcessor.emitCoords]
    refine ⟨?_, ?_,
      ⟨{ fType := typeOf E ct, fVariable := v,
         fLocation := (st.proc.fSeparableVaryingInfos.length : Int) } :: recs, ?_, ?_⟩,
      ⟨⟨name, typeOf E ct⟩ :: coords, ?_, ?_⟩⟩
    · rw [s1, hv]
      simp [normalEntries]
    · rw [s2, emitOne_base]
    · rw [s3, hv]
      simp only [List.append_assoc, List.singleton_append]
    · simp [s4]
    · rw [s5]
      simp only [List.append_assoc, List.singleton_append]
    · simp [s6]

theorem normal_emitGroups_spec (E : Collaborators SkMatrix GrCoordTransform Builder)
    (tin : List (List GrCoordTransform)) (st : NormalEmit SkMatrix Builder)
    (preG : List (List (Transform SkMatrix))) (preT : TransformsOut)
    (hG : st.proc.fInstalledTransforms = preG ++ List.replicate tin.length [])
    (hT : st.tout = preT ++ List.replicate tin.length []) (hlen : preT.length = preG.length) :
    (GrGLNormalPathProcessor.emitGroups E tin preG.length st).proc.fInstalledTransforms
        = preG ++ normalInstalled E st.proc.fSeparableVaryingInfos.length tin ∧
      (GrGLNormalPathProcessor.emitGroups E tin preG.length st).proc.toGrGLPathProcessor
        = st.proc.toGrGLPathProcessor ∧
      (∃ recs,
        (GrGLNormalPathProcessor.emitGroups E tin preG.length st).proc.fSeparableVaryingInfos
            = st.proc.fSeparableVaryingInfos ++ recs ∧
          recs.map (fun r => r.fType) = (tin.map (List.map (typeOf E))).flatten) ∧
      (∃ outs,
        (GrGLNormalPathProcessor.emitGroups E tin preG.length st).tout = preT ++ outs ∧
          outs.map (List.map fun c => c.fType) = tin.map (List.map (typeOf E))) := by
  induction tin generalizing st preG preT with
  | nil =>
    simp only [GrGLNormalPathProcessor.emitGroups, normalInstalled, List.length_nil,
      List.replicate_zero, List.append_nil] at hG hT ⊢
    exact ⟨hG, trivial, ⟨[], by simp⟩, ⟨[], by simp [hT]⟩⟩
  | cons g rest ih =>
    simp only [GrGLNormalPathProcessor.emitGroups]
    have hG0 : (modifyAt (fun a => push_back_n a g.length (Transform.default E)) preG.length
        st.proc.fInstalledTransforms)
        = preG ++ ([] ++ List.replicate g.length (Transform.default E)) ::
            List.replicate rest.length [] := by
      rw [hG]
      simp only [List.length_cons, List.replicate_succ, modifyAt_append_cons, push_back_n]
    have hT0 : st.tout = preT ++ [] :: List.replicate rest.length [] := by
      rw [hT]
      simp only [List.length_cons, List.replicate_succ]
    obtain ⟨c1, c2, ⟨recs0, c3, c4⟩, ⟨coords, c5, c6⟩⟩ :=
      normal_emitCoords_spec E g
        { st with
          proc :=
            { st.proc with
              fInstalledTransforms :=
                modifyAt (fun a => push_back_n a g.length (Transform.default E)) preG.length
                  st.proc.fInstalledTransforms } }
        preG [] (List.replicate rest.length []) preT [] (List.replicate rest.length [])
        hG0 hT0 hlen
    simp only [List.length_nil, List.nil_append] at c1 c2 c3 c5
    have step := ih
      (GrGLNormalPathProcessor.emitCoords E preG.length g 0
        { st with
          proc :=
            { st.proc with
              fInstalledTransforms :=
                modifyAt (fun a => push_back_n a g.length (Transform.default E)) preG.length
                  st.proc.fInstalledTransforms } })
      (preG ++ [normalEntries E st.proc.fSeparableVaryingInfos.length g]) (preT ++ [coords])
      (by rw [c1]; simp) (by rw [c5]; simp) (by simp [hlen])
    simp only [List.length_append, List.length_singleton] at step
    obtain ⟨s1, s2, ⟨recs, s3, s4⟩, ⟨outs, s5, s6⟩⟩ := step
    have hl : recs0.length = g.length := by
      have := congrArg List.length c4
      simpa using this
    refine ⟨?_, ?_, ⟨recs0 ++ recs, ?_, ?_⟩, ⟨coords :: outs, ?_, ?_⟩⟩
    · rw [s1, c3]
      simp [normalInstalled, hl]
    · rw [s2, c2]
    · rw [s3, c3]
      simp only [List.append_assoc]
    · simp [s4, c4]
    · rw [s5]
      simp only [List.append_assoc, List.singleton_append]
    · simp [s6, c6]

/-! ## The varying-based strategy: per-draw update -/

theorem getElem?_append_cons_length {α : Type} (pre : List α) (x : α) (suf : List α) :
    (pre ++ x :: suf)[pre.length]? = some x := by
  rw [List.getElem?_append_right (Nat.le_refl _)]
  simp

theorem cachedAfter_cons (E : Collaborators SkMatrix GrCoordTransform Builder) (lm : SkMatrix)
    (e : Transform SkMatrix) (es : List (Transform SkMatrix)) (ct : GrCoordTransform)
    (cts : List GrCoordTransform) :
    cachedAfter E lm (e :: es) (ct :: cts)
      = { e with fCurrentValue := E.GetTransformMatrix lm ct } :: cachedAfter E lm es cts := rfl

theorem pushesOf_cons_same [DecidableEq SkMatrix]
    (E : Collaborators SkMatrix GrCoordTransform Builder) (lm : SkMatrix) (pid : Nat)
    (infos : List SeparableVaryingInfo) (e : Transform SkMatrix)
    (es : List (Transform SkMatrix)) (ct : GrCoordTransform) (cts : List GrCoordTransform)
    (h : e.fCurrentValue = E.GetTransformMatrix lm ct) :
    pushesOf E lm pid infos (e :: es) (ct :: cts) = pushesOf E lm pid infos es cts := by
  simp [pushesOf, List.filterMap_cons, h]

theorem pushesOf_cons_changed [DecidableEq SkMatrix]
    (E : Collaborators SkMatrix GrCoordTransform Builder) (lm : SkMatrix) (pid : Nat)
    (infos : List SeparableVaryingInfo) (e : Transform SkMatrix)
    (es : List (Transform SkMatrix)) (ct : GrCoordTransform) (cts : List GrCoordTransform)
    (h : e.fCurrentValue ≠ E.GetTransformMatrix lm ct) :
    pushesOf E lm pid infos (e :: es) (ct :: cts)
      = pushCall E lm pid infos e.fHandle e.fType ct :: pushesOf E lm pid infos es cts := by
  simp [pushesOf, List.filterMap_cons, h]

theorem setTransformLoop_spec [DecidableEq SkMatrix]
    (E : Collaborators SkMatrix GrCoordTransform Builder) (lm : SkMatrix) (pid : Nat)
    (infos : List SeparableVaryingInfo) (todo done : List (Transform SkMatrix))
    (doneC todoC : List GrCoordTransform) (calls : List (PathRenderingCall SkMatrix))
    (hC : doneC.length = done.length) (hlen : todo.length ≤ todoC.length)
    (hgood : ∀ e ∈ todo, e.fHandle.isValid = true ∧
      (infoAt infos e.fHandle.handle).isSome = true ∧
      (e.fType = kVec2f_GrSLType ∨ e.fType = kVec3f_GrSLType)) :
    GrGLNormalPathProcessor.setTransformLoop E lm (doneC ++ todoC) pid infos todo.length
        done.length (done ++ todo) calls
      = some (done ++ cachedAfter E lm todo todoC,
          calls ++ pushesOf E lm pid infos todo todoC) := by
  induction todo generalizing done doneC todoC calls with
  | nil => simp [GrGLNormalPathProcessor.setTransformLoop, cachedAfter, pushesOf]
  | cons e todo ih =>
    cases todoC with
    | nil => simp at hlen
    | cons ct todoC =>
      obtain ⟨hv, hi, hty⟩ := hgood e (List.mem_cons_self _ _)
      have hrest : ∀ x ∈ todo, x.fHandle.isValid = true ∧
          (infoAt infos x.fHandle.handle).isSome = true ∧
          (x.fType = kVec2f_GrSLType ∨ x.fType = kVec3f_GrSLType) :=
        fun x hx => hgood x (List.mem_cons_of_mem _ hx)
      have hlen1 : todo.length ≤ todoC.length := by simpa using hlen
      have hct : (doneC ++ ct :: todoC)[done.length]? = some ct := by
        rw [← hC]
        exact getElem?_append_cons_length doneC ct todoC
      simp only [List.length_cons, GrGLNormalPathProcessor.setTransformLoop,
        getElem?_append_cons_length, hv, hct, Bool.true_eq_false, if_false]
      by_cases heq : e.fCurrentValue = E.GetTransformMatrix lm ct
      · have hcheap : cheapEqualTo e.fCurrentValue (E.GetTransformMatrix lm ct) = true := by
          simp [cheapEqualTo, heq]
        simp only [hcheap, if_true]
        have step := ih (done ++ [e]) (doneC ++ [ct]) todoC calls (by simp [hC]) hlen1 hrest
        simp only [List.length_append, List.length_singleton, List.append_assoc,
          List.singleton_append] at step
        rw [step, cachedAfter_cons, pushesOf_cons_same E lm pid infos e todo ct todoC heq]
        have he : ({ e with fCurrentValue := E.GetTransformMatrix lm ct } : Transform SkMatrix)
            = e := by
          cases e
          simp_all
        rw [he]
      · have hcheap : ¬ cheapEqualTo e.fCurrentValue (E.GetTransformMatrix lm ct) = true := by
          simp [cheapEqualTo, heq]
        simp only [hcheap, if_false]
        obtain ⟨fi, hfi⟩ := Option.isSome_iff_exists.mp hi
        simp only [hfi, hty, if_true, modifyAt_append_cons]
        have step := ih (done ++ [{ e with fCurrentValue := E.GetTransformMatrix lm ct }])
          (doneC ++ [ct]) todoC
          (calls ++ [setProgramPathFragmentInputTransform pid fi.fLocation
            GrGLenum.GR_GL_OBJECT_LINEAR (if e.fType = kVec2f_GrSLType then 2 else 3)
            (E.GetTransformMatrix lm ct)])
          (by simp [hC]) hlen1 hrest
        simp only [List.length_append, List.length_singleton, List.append_assoc,
          List.singleton_append] at step
        rw [step, cachedAfter_cons, pushesOf_cons_changed E lm pid infos e todo ct todoC heq]
        simp [pushCall, locationOf, hfi]

theorem setTransformData_spec [DecidableEq SkMatrix]
    (E : Collaborators SkMatrix GrCoordTransform Builder)
    (s : GrGLNormalPathProcessor SkMatrix) (lm : SkMatrix) (index : Nat)
    (cts : List GrCoordTransform) (pid : Nat) (grp : List (Transform SkMatrix))
    (hW : WellFormed s) (hg : s.fInstalledTransforms[index]? = some grp)
    (hlen : grp.length ≤ cts.length) :
    GrGLNormalPathProcessor.setTransformData E s lm index cts pid
      = some ({ s with
                fInstalledTransforms :=
                  modifyAt (fun _ => cachedAfter E lm grp cts) index s.fInstalledTransforms },
              pushesOf E lm pid s.fSeparableVaryingInfos grp cts) := by
  have h := setTransformLoop_spec E lm pid s.fSeparableVaryingInfos grp [] [] cts [] rfl hlen
    (hW grp (List.getElem?_mem hg))
  simp only [List.nil_append, List.length_nil] at h
  simp only [GrGLNormalPathProcessor.setTransformData, hg, h]

theorem cachedAfter_key (E : Collaborators SkMatrix GrCoordTransform Builder) (lm : SkMatrix)
    (grp : List (Transform SkMatrix)) (cts : List GrCoordTransform)
    (hlen : grp.length ≤ cts.length) :
    (cachedAfter E lm grp cts).map (fun e => (e.fHandle, e.fType))
      = grp.map (fun e => (e.fHandle, e.fType)) := by
  induction grp generalizing cts with
  | nil => simp [cachedAfter]
  | cons e es ih =>
    cases cts with
    | nil => simp at hlen
    | cons ct cts =>
      rw [cachedAfter_cons]
      simp only [List.map_cons, List.cons.injEq, true_and]
      exact ih cts (by simpa using hlen)

theorem cachedAfter_values (E : Collaborators SkMatrix GrCoordTransform Builder)
    (lm : SkMatrix) (grp : List (Transform SkMatrix)) (cts : List GrCoordTransform)
    (hlen : cts.length ≤ grp.length) :
    (cachedAfter E lm grp cts).map (fun e => e.fCurrentValue)
      = cts.map (E.GetTransformMatrix lm) := by
  induction grp generalizing cts with
  | nil =>
    cases cts with
    | nil => simp [cachedAfter]
    | cons ct cts => simp at hlen
  | cons e es ih =>
    cases cts with
    | nil => simp [cachedAfter]
    | cons ct cts =>
      rw [cachedAfter_cons]
      simp only [List.map_cons, List.cons.injEq, true_and]
      exact ih cts (by simpa using hlen)

theorem cachedAfter_idem (E : Collaborators SkMatrix GrCoordTransform Builder) (lm : SkMatrix)
    (grp : List (Transform SkMatrix)) (cts : List GrCoordTransform) :
    cachedAfter E lm (cachedAfter E lm grp cts) cts = cachedAfter E lm grp cts := by
  induction grp generalizing cts with
  | nil => simp [cachedAfter]
  | cons e es ih =>
    cases cts with
    | nil => simp [cachedAfter]
    | cons ct cts => simp only [cachedAfter_cons, ih]

theorem pushesOf_cachedAfter [DecidableEq SkMatrix]
    (E : Collaborators SkMatrix GrCoordTransform Builder) (lm : SkMatrix) (pid : Nat)
    (infos : List SeparableVaryingInfo) (grp : List (Transform SkMatrix))
    (cts : List GrCoordTransform) :
    pushesOf E lm pid infos (cachedAfter E lm grp cts) cts = [] := by
  induction grp generalizing cts with
  | nil => simp [cachedAfter, pushesOf]
  | cons e es ih =>
    cases cts with
    | nil => simp [cachedAfter, pushesOf]
    | cons ct cts =>
      rw [cachedAfter_cons, pushesOf_cons_same E lm pid infos _ _ ct cts rfl]
      exact ih cts

theorem pushesOf_sublist [DecidableEq SkMatrix]
    (E : Collaborators SkMatrix GrCoordTransform Builder) (lm : SkMatrix) (pid : Nat)
    (infos : List SeparableVaryingInfo) (grp : List (Transform SkMatrix))
    (cts : List GrCoordTransform) :
    (pushesOf E lm pid infos grp cts).Sublist
      (allPushes E lm pid infos (grp.map fun e => (e.fHandle, e.fType)) cts) := by
  induction grp generalizing cts with
  | nil => simp [pushesOf, allPushes]
  | cons e es ih =>
    cases cts with
    | nil => simp [pushesOf, allPushes]
    | cons ct cts =>
      simp only [allPushes, List.map_cons, List.zipWith_cons_cons]
      by_cases heq : e.fCurrentValue = E.GetTransformMatrix lm ct
      · rw [pushesOf_cons_same E lm pid infos e es ct cts heq]
        exact List.Sublist.cons _ (ih cts)
      · rw [pushesOf_cons_changed E lm pid infos e es ct cts heq]
        exact List.Sublist.cons₂ _ (ih cts)

theorem pushesOf_mem [DecidableEq SkMatrix]
    (E : Collaborators SkMatrix GrCoordTransform Builder) (lm : SkMatrix) (pid : Nat)
    (infos : List SeparableVaryingInfo) (grp : List (Transform SkMatrix))
    (cts : List GrCoordTransform) (t : Nat) (e : Transform SkMatrix) (ct : GrCoordTransform)
    (he : grp[t]? = some e) (hct : cts[t]? = some ct)
    (hne : e.fCurrentValue ≠ E.GetTransformMatrix lm ct) :
    pushCall E lm pid infos e.fHandle e.fType ct ∈ pushesOf E lm pid infos grp cts := by
  induction grp generalizing cts t with
  | nil => simp at he
  | cons x es ih =>
    cases cts with
    | nil => simp at hct
    | cons c cts =>
      cases t with
      | zero =>
        simp only [List.getElem?_cons_zero, Option.some.injEq] at he hct
        subst he hct
        rw [pushesOf_cons_changed E lm pid infos x es c cts hne]
        exact List.mem_cons_self _ _
      | succ t =>
        simp only [List.getElem?_cons_succ] at he hct
        have := ih cts t he hct
        by_cases heq : x.fCurrentValue = E.GetTransformMatrix lm c
        · rw [pushesOf_cons_same E lm pid infos x es c cts heq]
          exact this
        · rw [pushesOf_cons_changed E lm pid infos x es c cts heq]
          exact List.mem_cons_of_mem _ this

theorem modifyAt_const_getElem? {α : Type} (l : List α) (i : Nat) (x y : α)
    (h : l[i]? = some x) : (modifyAt (fun _ => y) i l)[i]? = some y := by
  induction l generalizing i with
  | nil => simp at h
  | cons a l ih =>
    cases i with
    | zero => simp [modifyAt]
    | succ i =>
      simp only [List.getElem?_cons_succ] at h
      simp only [modifyAt, List.getElem?_cons_succ]
      exact ih i h

theorem modifyAt_const_twice {α : Type} (l : List α) (i : Nat) (y : α) :
    modifyAt (fun _ => y) i (modifyAt (fun _ => y) i l) = modifyAt (fun _ => y) i l := by
  induction l generalizing i with
  | nil => simp [modifyAt]
  | cons a l ih =>
    cases i with
    | zero => rfl
    | succ i => simp only [modifyAt, ih]

theorem skeleton_getElem? (l : List (List (Transform SkMatrix))) (i : Nat) :
    (skeleton l)[i]? = (l[i]?).map (List.map fun e => (e.fHandle, e.fType)) := by
  simp [skeleton]

theorem skeleton_modifyAt (l : List (List (Transform SkMatrix))) (i : Nat)
    (grp y : List (Transform SkMatrix)) (h : l[i]? = some grp)
    (hy : y.map (fun e => (e.fHandle, e.fType)) = grp.map (fun e => (e.fHandle, e.fType))) :
    skeleton (modifyAt (fun _ => y) i l) = skeleton l := by
  induction l generalizing i with
  | nil => simp at h
  | cons a l ih =>
    cases i with
    | zero =>
      simp only [List.getElem?_cons_zero, Option.some.injEq] at h
      subst h
      simp [modifyAt, skeleton, hy]
    | succ i =>
      simp only [List.getElem?_cons_succ] at h
      have := ih i h
      simp only [skeleton, modifyAt, List.map_cons] at this ⊢
      rw [this]

theorem infoAt_isSome_iff (infos : List SeparableVaryingInfo) (h : Int) :
    (infoAt infos h).isSome = true ↔ 0 ≤ h ∧ h.toNat < infos.length := by
  unfold infoAt
  by_cases hn : h < 0
  · simp only [if_pos hn, Option.isSome_none, Bool.false_eq_true, false_iff]
    omega
  · simp only [if_neg hn]
    constructor
    · intro hs
      obtain ⟨v, hv⟩ := Option.isSome_iff_exists.mp hs
      obtain ⟨hlt, _⟩ := List.getElem?_eq_some.mp hv
      exact ⟨by omega, hlt⟩
    · intro hb
      rw [List.getElem?_eq_getElem hb.2]
      rfl

theorem wellFormed_of_skeleton_eq (s s' : GrGLNormalPathProcessor SkMatrix)
    (hsk : skeleton s'.fInstalledTransforms = skeleton s.fInstalledTransforms)
    (hinf : s'.fSeparableVaryingInfos.length = s.fSeparableVaryingInfos.length)
    (hW : WellFormed s) : WellFormed s' := by
  intro grp' hg' e' he'
  have h1 : grp'.map (fun e => (e.fHandle, e.fType)) ∈ skeleton s.fInstalledTransforms := by
    rw [← hsk]
    exact List.mem_map_of_mem _ hg'
  obtain ⟨grp, hg, hgk⟩ := List.mem_map.mp h1
  have h2 : (e'.fHandle, e'.fType) ∈ grp.map (fun e => (e.fHandle, e.fType)) := by
    rw [hgk]
    exact List.mem_map_of_mem (fun e => (e.fHandle, e.fType)) he'
  obtain ⟨e, he, hek⟩ := List.mem_map.mp h2
  obtain ⟨w1, w2, w3⟩ := hW grp hg e he
  simp only [Prod.mk.injEq] at hek
  rw [← hek.1, ← hek.2]
  refine ⟨w1, ?_, w3⟩
  rw [infoAt_isSome_iff] at w2 ⊢
  rw [hinf]
  exact w2

theorem setTransformData_infos [DecidableEq SkMatrix]
    (E : Collaborators SkMatrix GrCoordTransform Builder)
    (s s1 : GrGLNormalPathProcessor SkMatrix) (lm : SkMatrix) (index : Nat)
    (cts : List GrCoordTransform) (pid : Nat) (calls : List (PathRenderingCall SkMatrix))
    (h : GrGLNormalPathProcessor.setTransformData E s lm index cts pid = some (s1, calls)) :
    s1.fSeparableVaryingInfos = s.fSeparableVaryingInfos ∧
      s1.toGrGLPathProcessor = s.toGrGLPathProcessor := by
  unfold GrGLNormalPathProcessor.setTransformData at h
  split at h
  · simp at h
  · split at h
    · simp at h
    · simp only [Option.some.injEq, Prod.mk.injEq] at h
      rw [← h.1]
      exact ⟨rfl, rfl⟩

theorem drawAll_spec [DecidableEq SkMatrix]
    (E : Collaborators SkMatrix GrCoordTransform Builder)
    (ds : List (Draw SkMatrix GrCoordTransform)) (s : GrGLNormalPathProcessor SkMatrix)
    (hW : WellFormed s)
    (hfit : ∀ d ∈ ds, ∃ sk, (skeleton s.fInstalledTransforms)[d.index]? = some sk ∧
      sk.length ≤ d.coordTransforms.length) :
    ∃ s' traces, GrGLNormalPathProcessor.drawAll E s ds = some (s', traces) ∧
      skeleton s'.fInstalledTransforms = skeleton s.fInstalledTransforms ∧
      s'.fSeparableVaryingInfos = s.fSeparableVaryingInfos ∧
      s'.toGrGLPathProcessor = s.toGrGLPathProcessor ∧
      traces.length = ds.length ∧
      ∀ (k : Nat) (d : Draw SkMatrix GrCoordTransform) (tr : List (PathRenderingCall SkMatrix)),
        ds[k]? = some d → traces[k]? = some tr →
          ∃ sk, (skeleton s.fInstalledTransforms)[d.index]? = some sk ∧
            tr.Sublist (allPushes E d.localMatrix d.programID s.fSeparableVaryingInfos sk
              d.coordTransforms) := by
  induction ds generalizing s with
  | nil =>
    refine ⟨s, [], rfl, rfl, rfl, rfl, rfl, ?_⟩
    intro k d tr hd
    simp at hd
  | cons d ds ih =>
    obtain ⟨sk, hsk, hlen⟩ := hfit d (List.mem_cons_self _ _)
    rw [skeleton_getElem?] at hsk
    obtain ⟨grp, hg, hgk⟩ := Option.map_eq_some'.mp hsk
    have hlen' : grp.length ≤ d.coordTransforms.length := by
      rw [← hgk] at hlen
      simpa using hlen
    have hstep := setTransformData_spec E s d.localMatrix d.index d.coordTransforms d.programID
      grp hW hg hlen'
    have hsk1 : skeleton (modifyAt (fun _ => cachedAfter E d.localMatrix grp d.coordTransforms)
        d.index s.fInstalledTransforms) = skeleton s.fInstalledTransforms :=
      skeleton_modifyAt _ _ grp _ hg (cachedAfter_key E d.localMatrix grp d.coordTransforms hlen')
    have hW1 := wellFormed_of_skeleton_eq s
      { s with
        fInstalledTransforms :=
          modifyAt (fun _ => cachedAfter E d.localMatrix grp d.coordTransforms) d.index
            s.fInstalledTransforms } hsk1 rfl hW
    obtain ⟨s', traces, h1, h2, h3, h4, h5, h6⟩ := ih _ hW1 (by
      intro x hx
      obtain ⟨skx, hx1, hx2⟩ := hfit x (List.mem_cons_of_mem _ hx)
      exact ⟨skx, by rw [hsk1]; exact hx1, hx2⟩)
    refine ⟨s', pushesOf E d.localMatrix d.programID s.fSeparableVaryingInfos grp
      d.coordTransforms :: traces, ?_, ?_, ?_, ?_, ?_, ?_⟩
    · simp only [GrGLNormalPathProcessor.drawAll, hstep, h1]
    · rw [h2, hsk1]
    · rw [h3]
    · rw [h4]
    · simp [h5]
    · intro k x tr hx htr
      cases k with
      | zero =>
        simp only [List.getElem?_cons_zero, Option.some.injEq] at hx htr
        subst hx htr
        refine ⟨grp.map fun e => (e.fHandle, e.fType), ?_, pushesOf_sublist E _ _ _ grp _⟩
        rw [skeleton_getElem?, hg]
        rfl
      | succ k =>
        simp only [List.getElem?_cons_succ] at hx htr
        obtain ⟨skx, hx1, hx2⟩ := h6 k x tr hx htr
        exact ⟨skx, by rw [← hsk1]; exact hx1, hx2⟩

/-! ## The varying-based strategy: the state after emission and resolution -/

theorem normal_emitTransforms_spec (E : Collaborators SkMatrix GrCoordTransform Builder)
    (illegal : GrColor) (pb : Builder) (tin : List (List GrCoordTransform)) :
    (GrGLNormalPathProcessor.emitTransforms E (GrGLNormalPathProcessor.new SkMatrix illegal) pb
        tin []).proc.fInstalledTransforms = normalInstalled E 0 tin ∧
      (GrGLNormalPathProcessor.emitTransforms E (GrGLNormalPathProcessor.new SkMatrix illegal) pb
        tin []).proc.toGrGLPathProcessor = GrGLPathProcessor.new illegal ∧
      ((GrGLNormalPathProcessor.emitTransforms E (GrGLNormalPathProcessor.new SkMatrix illegal) pb
        tin []).proc.fSeparableVaryingInfos.map fun r => r.fType)
          = (tin.map (List.map (typeOf E))).flatten ∧
      ((GrGLNormalPathProcessor.emitTransforms E (GrGLNormalPathProcessor.new SkMatrix illegal) pb
        tin []).tout.map (List.map fun c => c.fType)) = tin.map (List.map (typeOf E)) := by
  obtain ⟨h1, h2, ⟨recs, h3, h4⟩, ⟨outs, h5, h6⟩⟩ := normal_emitGroups_spec E tin
    { proc :=
        { GrGLNormalPathProcessor.new SkMatrix illegal with
          fInstalledTransforms :=
            push_back_n (GrGLNormalPathProcessor.new SkMatrix illegal).fInstalledTransforms
              tin.length [] }
      pb := pb
      tout := push_back_n [] tin.length [] } [] [] rfl rfl rfl
  simp only [List.length_nil, List.nil_append] at h1 h3 h5
  unfold GrGLNormalPathProcessor.emitTransforms
  refine ⟨?_, ?_, ?_, ?_⟩
  · rw [h1]
    rfl
  · exact h2
  · rw [h3]
    simpa [GrGLNormalPathProcessor.new] using h4
  · rw [h5]
    exact h6

theorem normalEntries_length (E : Collaborators SkMatrix GrCoordTransform Builder) (base : Nat)
    (g : List GrCoordTransform) :
    (@normalEntries SkMatrix GrCoordTransform Builder E base g).length = g.length := by
  induction g generalizing base with
  | nil => rfl
  | cons ct rest ih => simp [normalEntries, ih]

theorem normalEntries_getElem? (E : Collaborators SkMatrix GrCoordTransform Builder)
    (base : Nat) (g : List GrCoordTransform) (t : Nat) (ct : GrCoordTransform)
    (h : g[t]? = some ct) :
    (normalEntries E base g)[t]?
      = some { fHandle := ⟨((base + t : Nat) : Int)⟩, fCurrentValue := E.InvalidMatrix,
               fType := typeOf E ct } := by
  induction g generalizing base t with
  | nil => simp at h
  | cons c rest ih =>
    cases t with
    | zero =>
      simp only [List.getElem?_cons_zero, Option.some.injEq] at h
      subst h
      simp [normalEntries]
    | succ t =>
      simp only [List.getElem?_cons_succ] at h
      simp only [normalEntries, List.getElem?_cons_succ]
      rw [ih (base + 1) t h]
      have e : base + 1 + t = base + (t + 1) := by omega
      rw [e]

theorem normalInstalled_getElem? (E : Collaborators SkMatrix GrCoordTransform Builder)
    (base : Nat) (tin : List (List GrCoordTransform)) (i : Nat) (g : List GrCoordTransform)
    (h : tin[i]? = some g) :
    (@normalInstalled SkMatrix GrCoordTransform Builder E base tin)[i]?
      = some (normalEntries E (base + groupStart tin i) g) := by
  induction tin generalizing base i with
  | nil => simp at h
  | cons a rest ih =>
    cases i with
    | zero =>
      simp only [List.getElem?_cons_zero, Option.some.injEq] at h
      subst h
      simp [normalInstalled, groupStart_zero]
    | succ i =>
      simp only [List.getElem?_cons_succ] at h
      simp only [normalInstalled, List.getElem?_cons_succ]
      rw [ih (base + a.length) i h, groupStart_cons_succ]
      have e : base + a.length + groupStart rest i = base + (a.length + groupStart rest i) := by
        omega
      rw [e]

theorem typeOf_cases (E : Collaborators SkMatrix GrCoordTransform Builder)
    (ct : GrCoordTransform) :
    typeOf E ct = kVec2f_GrSLType ∨ typeOf E ct = kVec3f_GrSLType := by
  unfold typeOf
  split
  · exact Or.inr rfl
  · exact Or.inl rfl

theorem normalEntries_bounds (E : Collaborators SkMatrix GrCoordTransform Builder) (base : Nat)
    (g : List GrCoordTransform) :
    ∀ e ∈ @normalEntries SkMatrix GrCoordTransform Builder E base g,
      (base : Int) ≤ e.fHandle.fValue ∧ e.fHandle.fValue < ((base + g.length : Nat) : Int) ∧
        (e.fType = kVec2f_GrSLType ∨ e.fType = kVec3f_GrSLType) := by
  induction g generalizing base with
  | nil => simp [normalEntries]
  | cons ct rest ih =>
    intro e he
    simp only [normalEntries, List.mem_cons] at he
    rcases he with rfl | he
    · refine ⟨le_refl _, ?_, typeOf_cases E ct⟩
      simp only [List.length_cons]
      omega
    · obtain ⟨b1, b2, b3⟩ := ih (base + 1) e he
      refine ⟨by omega, ?_, b3⟩
      simp only [List.length_cons]
      omega

theorem normalInstalled_bounds (E : Collaborators SkMatrix GrCoordTransform Builder)
    (base : Nat) (tin : List (List GrCoordTransform)) :
    ∀ grp ∈ @normalInstalled SkMatrix GrCoordTransform Builder E base tin, ∀ e ∈ grp,
      (base : Int) ≤ e.fHandle.fValue ∧
        e.fHandle.fValue < ((base + (tin.map List.length).sum : Nat) : Int) ∧
        (e.fType = kVec2f_GrSLType ∨ e.fType = kVec3f_GrSLType) := by
  induction tin generalizing base with
  | nil => simp [normalInstalled]
  | cons g rest ih =>
    intro grp hgrp e he
    simp only [normalInstalled, List.mem_cons] at hgrp
    simp only [List.map_cons, List.sum_cons]
    rcases hgrp with rfl | hgrp
    · obtain ⟨b1, b2, b3⟩ := normalEntries_bounds E base g e he
      exact ⟨b1, by omega, b3⟩
    · obtain ⟨b1, b2, b3⟩ := ih (base + g.length) grp hgrp e he
      exact ⟨by omega, by omega, b3⟩

theorem flatten_map_getElem? {α β : Type} (f : α → β) (tin : List (List α)) (i t : Nat)
    (g : List α) (a : α) (hg : tin[i]? = some g) (ha : g[t]? = some a) :
    ((tin.map (List.map f)).flatten)[groupStart tin i + t]? = some (f a) := by
  induction tin generalizing i with
  | nil => simp at hg
  | cons x rest ih =>
    cases i with
    | zero =>
      simp only [List.getElem?_cons_zero, Option.some.injEq] at hg
      subst hg
      have ht : t < (List.map f x).length := by
        rw [List.length_map]
        exact (List.getElem?_eq_some.mp ha).1
      simp only [groupStart_zero, Nat.zero_add, List.map_cons, List.flatten_cons]
      rw [List.getElem?_append_left ht, List.getElem?_map, ha]
      rfl
    | succ i =>
      simp only [List.getElem?_cons_succ] at hg
      simp only [groupStart_cons_succ, List.map_cons, List.flatten_cons]
      rw [List.getElem?_append_right (by simp; omega)]
      have e : x.length + groupStart rest i + t - (List.map f x).length
          = groupStart rest i + t := by
        simp
        omega
      rw [e]
      exact ih i hg

theorem flatten_map_length {α β : Type} (f : α → β) (tin : List (List α)) :
    ((tin.map (List.map f)).flatten).length = (tin.map List.length).sum := by
  induction tin with
  | nil => rfl
  | cons x rest ih => simp [ih]

theorem normal_emit_infos_length (E : Collaborators SkMatrix GrCoordTransform Builder)
    (illegal : GrColor) (pb : Builder) (tin : List (List GrCoordTransform)) :
    (GrGLNormalPathProcessor.emitTransforms E (GrGLNormalPathProcessor.new SkMatrix illegal) pb
        tin []).proc.fSeparableVaryingInfos.length = (tin.map List.length).sum := by
  have h := (normal_emitTransforms_spec E illegal pb tin).2.2.1
  have := congrArg List.length h
  rw [List.length_map, flatten_map_length] at this
  exact this

theorem normal_emit_wellFormed (E : Collaborators SkMatrix GrCoordTransform Builder)
    (illegal : GrColor) (pb : Builder) (tin : List (List GrCoordTransform)) :
    WellFormed (GrGLNormalPathProcessor.emitTransforms E
      (GrGLNormalPathProcessor.new SkMatrix illegal) pb tin []).proc := by
  intro grp hgrp e he
  rw [(normal_emitTransforms_spec E illegal pb tin).1] at hgrp
  obtain ⟨b1, b2, b3⟩ := normalInstalled_bounds E 0 tin grp hgrp e he
  simp only [Nat.zero_add, Nat.cast_zero] at b1 b2
  refine ⟨?_, ?_, b3⟩
  · simp only [ShaderVarHandle.isValid, decide_eq_true_eq]
    omega
  · rw [infoAt_isSome_iff, normal_emit_infos_length]
    simp only [ShaderVarHandle.handle]
    omega

theorem resolve_wellFormed (E : Collaborators SkMatrix GrCoordTransform Builder)
    (s : GrGLNormalPathProcessor SkMatrix) (prog : Nat) (hW : WellFormed s) :
    WellFormed (GrGLNormalPathProcessor.resolveSeparableVaryings E s prog) :=
  wellFormed_of_skeleton_eq s _ rfl (by simp [GrGLNormalPathProcessor.resolveSeparableVaryings])
    hW

theorem resolve_getElem? (E : Collaborators SkMatrix GrCoordTransform Builder)
    (s : GrGLNormalPathProcessor SkMatrix) (prog : Nat) (k : Nat) (v : SeparableVaryingInfo)
    (h : s.fSeparableVaryingInfos[k]? = some v) :
    (GrGLNormalPathProcessor.resolveSeparableVaryings E s prog).fSeparableVaryingInfos[k]?
      = some { v with fLocation := E.GetProgramResourceLocation prog v.fVariable.c_str } := by
  simp [GrGLNormalPathProcessor.resolveSeparableVaryings, h]

theorem allPushes_length (E : Collaborators SkMatrix GrCoordTransform Builder) (lm : SkMatrix)
    (pid : Nat) (infos : List SeparableVaryingInfo) (sk : List (ShaderVarHandle × GrSLType))
    (cts : List GrCoordTransform) (h : cts.length ≤ sk.length) :
    (allPushes E lm pid infos sk cts).length = cts.length := by
  simp only [allPushes, List.length_zipWith]
  omega

theorem allPushes_getElem? (E : Collaborators SkMatrix GrCoordTransform Builder)
    (lm : SkMatrix) (pid : Nat) (infos : List SeparableVaryingInfo)
    (sk : List (ShaderVarHandle × GrSLType)) (cts : List GrCoordTransform) (t : Nat)
    (p : ShaderVarHandle × GrSLType) (ct : GrCoordTransform) (hp : sk[t]? = some p)
    (hct : cts[t]? = some ct) :
    (allPushes E lm pid infos sk cts)[t]? = some (pushCall E lm pid infos p.1 p.2 ct) := by
  simp only [allPushes, List.getElem?_zipWith, hp, hct]

theorem skeleton_normalInstalled_getElem? (E : Collaborators SkMatrix GrCoordTransform Builder)
    (tin : List (List GrCoordTransform)) (i : Nat) (g : List GrCoordTransform)
    (h : tin[i]? = some g) :
    (skeleton (@normalInstalled SkMatrix GrCoordTransform Builder E 0 tin))[i]?
      = some ((@normalEntries SkMatrix GrCoordTransform Builder E (groupStart tin i) g).map
          fun e => (e.fHandle, e.fType)) := by
  rw [skeleton_getElem?, normalInstalled_getElem? E 0 tin i g h, Nat.zero_add]
  rfl

theorem normal_draws_spec [DecidableEq SkMatrix]
    (E : Collaborators SkMatrix GrCoordTransform Builder)
    (tin : List (List GrCoordTransform)) (s0 : GrGLNormalPathProcessor SkMatrix)
    (ds : List (Draw SkMatrix GrCoordTransform))
    (hsk : skeleton s0.fInstalledTransforms = skeleton (normalInstalled E 0 tin))
    (hW : WellFormed s0)
    (hfit : ∀ d ∈ ds, (tin[d.index]?).map List.length = some d.coordTransforms.length) :
    ∃ s' traces, GrGLNormalPathProcessor.drawAll E s0 ds = some (s', traces) ∧
      skeleton s'.fInstalledTransforms = skeleton (normalInstalled E 0 tin) ∧
      s'.fSeparableVaryingInfos = s0.fSeparableVaryingInfos ∧
      traces.length = ds.length ∧
      ∀ (k : Nat) (d : Draw SkMatrix GrCoordTransform) (tr : List (PathRenderingCall SkMatrix))
        (g : List GrCoordTransform),
        ds[k]? = some d → traces[k]? = some tr → tin[d.index]? = some g →
          tr.Sublist (allPushes E d.localMatrix d.programID s0.fSeparableVaryingInfos
            ((@normalEntries SkMatrix GrCoordTransform Builder E (groupStart tin d.index) g).map
              fun e => (e.fHandle, e.fType)) d.coordTransforms) := by
  have hfit' : ∀ d ∈ ds, ∃ sk, (skeleton s0.fInstalledTransforms)[d.index]? = some sk ∧
      sk.length ≤ d.coordTransforms.length := by
    intro d hd
    obtain ⟨g, hg, hl⟩ := Option.map_eq_some'.mp (hfit d hd)
    refine ⟨_, by rw [hsk]; exact skeleton_normalInstalled_getElem? E tin d.index g hg, ?_⟩
    rw [List.length_map, normalEntries_length, hl]
  obtain ⟨s', traces, h1, h2, h3, _, h5, h6⟩ := drawAll_spec E ds s0 hW hfit'
  refine ⟨s', traces, h1, by rw [h2, hsk], h3, h5, ?_⟩
  intro k d tr g hd htr hg
  obtain ⟨sk, hsk1, hsub⟩ := h6 k d tr hd htr
  rw [hsk, skeleton_normalInstalled_getElem? E tin d.index g hg] at hsk1
  simp only [Option.some.injEq] at hsk1
  rw [hsk1]
  exact hsub

theorem locationOf_resolve (E : Collaborators SkMatrix GrCoordTransform Builder)
    (s : GrGLNormalPathProcessor SkMatrix) (prog : Nat) (k : Nat) (v : SeparableVaryingInfo)
    (h : s.fSeparableVaryingInfos[k]? = some v) :
    locationOf (GrGLNormalPathProcessor.resolveSeparableVaryings E s prog).fSeparableVaryingInfos
        ⟨(k : Int)⟩ = E.GetProgramResourceLocation prog v.fVariable.c_str := by
  have hk : ¬ ((k : Int) < 0) := by omega
  simp only [locationOf, infoAt, ShaderVarHandle.handle, if_neg hk, Int.toNat_ofNat,
    resolve_getElem? E s prog k v h]

theorem components_eq (E : Collaborators SkMatrix GrCoordTransform Builder)
    (ct : GrCoordTransform) :
    (if typeOf E ct = kVec2f_GrSLType then 2 else 3)
      = if E.hasPerspective (E.getMatrix ct) = true then 3 else 2 := by
  unfold typeOf
  by_cases h : E.hasPerspective (E.getMatrix ct) = true <;> simp [h]

/-! ## The varying-based strategy: what emission declares on the builder -/

theorem emitOne_exact (E : Collaborators SkMatrix GrCoordTransform Builder) (i t : Nat)
    (ct : GrCoordTransform) (st : NormalEmit SkMatrix Builder) :
    (GrGLNormalPathProcessor.emitOne E i t ct st).pb
        = (E.addVarying st.pb (varyingName i t) (typeOf E ct)).1 ∧
      (GrGLNormalPathProcessor.emitOne E i t ct st).proc.fSeparableVaryingInfos
        = st.proc.fSeparableVaryingInfos ++
            [{ fType := typeOf E ct
               fVariable := E.fInputsBack (E.addVarying st.pb (varyingName i t) (typeOf E ct)).1
               fLocation := (st.proc.fSeparableVaryingInfos.length : Int) }] ∧
      (GrGLNormalPathProcessor.emitOne E i t ct st).tout
        = modifyAt (fun a => a ++
            [⟨(E.addVarying st.pb (varyingName i t) (typeOf E ct)).2, typeOf E ct⟩]) i st.tout := by
  simp [GrGLNormalPathProcessor.emitOne, varyingName]

theorem emittedRecords_length (E : Collaborators SkMatrix GrCoordTransform Builder) (i : Nat)
    (g : List GrCoordTransform) (t base : Nat) (pb : Builder) :
    (emittedRecords E i g t base pb).length = g.length := by
  induction g generalizing t base pb with
  | nil => rfl
  | cons ct rest ih => simp [emittedRecords, ih]

theorem normal_emitCoords_exact (E : Collaborators SkMatrix GrCoordTransform Builder)
    (g : List GrCoordTransform) (st : NormalEmit SkMatrix Builder) (t : Nat)
    (preT : TransformsOut) (acc : List TransformedCoords) (sufT : TransformsOut)
    (hT : st.tout = preT ++ acc :: sufT) :
    (GrGLNormalPathProcessor.emitCoords E preT.length g t st).pb
        = declareCoords E preT.length g t st.pb ∧
      (GrGLNormalPathProcessor.emitCoords E preT.length g t st).proc.fSeparableVaryingInfos
        = st.proc.fSeparableVaryingInfos ++
            emittedRecords E preT.length g t st.proc.fSeparableVaryingInfos.length st.pb ∧
      (GrGLNormalPathProcessor.emitCoords E preT.length g t st).tout
        = preT ++ (acc ++ emittedCoords E preT.length g t st.pb) :: sufT := by
  induction g generalizing st t acc with
  | nil =>
    simp [GrGLNormalPathProcessor.emitCoords, declareCoords, emittedRecords, emittedCoords, hT]
  | cons ct rest ih =>
    obtain ⟨o1, o2, o3⟩ := emitOne_exact E preT.length t ct st
    have hT1 : (GrGLNormalPathProcessor.emitOne E preT.length t ct st).tout
        = preT ++ (acc ++ [⟨(E.addVarying st.pb (varyingName preT.length t) (typeOf E ct)).2,
            typeOf E ct⟩]) :: sufT := by
      rw [o3, hT, modifyAt_append_cons]
    obtain ⟨s1, s2, s3⟩ := ih (GrGLNormalPathProcessor.emitOne E preT.length t ct st) (t + 1) _
      hT1
    simp only [GrGLNormalPathProcessor.emitCoords, declareCoords, emittedRecords, emittedCoords]
    refine ⟨?_, ?_, ?_⟩
    · rw [s1, o1]
    · rw [s2, o2, o1]
      simp
    · rw [s3, o1]
      simp

theorem normal_emitGroups_exact (E : Collaborators SkMatrix GrCoordTransform Builder)
    (tin : List (List GrCoordTransform)) (st : NormalEmit SkMatrix Builder)
    (preT : TransformsOut) (hT : st.tout = preT ++ List.replicate tin.length []) :
    (GrGLNormalPathProcessor.emitGroups E tin preT.length st).pb
        = declareGroups E tin preT.length st.pb ∧
      (GrGLNormalPathProcessor.emitGroups E tin preT.length st).proc.fSeparableVaryingInfos
        = st.proc.fSeparableVaryingInfos ++
            emittedAllRecords E tin preT.length st.proc.fSeparableVaryingInfos.length st.pb ∧
      (GrGLNormalPathProcessor.emitGroups E tin preT.length st).tout
        = preT ++ emittedOut E tin preT.length st.pb := by
  induction tin generalizing st preT with
  | nil =>
    simp [GrGLNormalPathProcessor.emitGroups, declareGroups, emittedAllRecords, emittedOut, hT]
  | cons g rest ih =>
    have hT0 : st.tout = preT ++ [] :: List.replicate rest.length [] := by
      rw [hT]
      simp only [List.length_cons, List.replicate_succ]
    obtain ⟨c1, c2, c3⟩ := normal_emitCoords_exact E g
      { st with
        proc :=
          { st.proc with
            fInstalledTransforms :=
              modifyAt (fun a => push_back_n a g.length (Transform.default E)) preT.length
                st.proc.fInstalledTransforms } }
      0 preT [] (List.replicate rest.length []) hT0
    simp only [List.nil_append] at c3
    have step := ih
      (GrGLNormalPathProcessor.emitCoords E preT.length g 0
        { st with
          proc :=
            { st.proc with
              fInstalledTransforms :=
                modifyAt (fun a => push_back_n a g.length (Transform.default E)) preT.length
                  st.proc.fInstalledTransforms } })
      (preT ++ [emittedCoords E preT.length g 0 st.pb]) (by rw [c3]; simp)
    simp only [List.length_append, List.length_singleton] at step
    obtain ⟨s1, s2, s3⟩ := step
    simp only [GrGLNormalPathProcessor.emitGroups, declareGroups, emittedAllRecords, emittedOut]
    refine ⟨?_, ?_, ?_⟩
    · rw [s1, c1]
    · rw [s2, c2, c1]
      simp [emittedRecords_length]
    · rw [s3, c1]
      simp

theorem normal_emitTransforms_exact (E : Collaborators SkMatrix GrCoordTransform Builder)
    (illegal : GrColor) (pb : Builder) (tin : List (List GrCoordTransform)) :
    (GrGLNormalPathProcessor.emitTransforms E (GrGLNormalPathProcessor.new SkMatrix illegal) pb
        tin []).proc.fSeparableVaryingInfos = emittedAllRecords E tin 0 0 pb ∧
      (GrGLNormalPathProcessor.emitTransforms E (GrGLNormalPathProcessor.new SkMatrix illegal) pb
        tin []).tout = emittedOut E tin 0 pb := by
  obtain ⟨_, h2, h3⟩ := normal_emitGroups_exact E tin
    { proc :=
        { GrGLNormalPathProcessor.new SkMatrix illegal with
          fInstalledTransforms :=
            push_back_n (GrGLNormalPathProcessor.new SkMatrix illegal).fInstalledTransforms
              tin.length [] }
      pb := pb
      tout := push_back_n [] tin.length [] } [] rfl
  simp only [List.length_nil, List.nil_append] at h2 h3
  unfold GrGLNormalPathProcessor.emitTransforms
  exact ⟨by rw [h2]; rfl, h3⟩

theorem emittedCoords_getElem? (E : Collaborators SkMatrix GrCoordTransform Builder) (i : Nat)
    (g : List GrCoordTransform) (t0 : Nat) (pb : Builder) (t : Nat) (ct : GrCoordTransform)
    (h : g[t]? = some ct) :
    (emittedCoords E i g t0 pb)[t]?
      = some ⟨(E.addVarying (declareCoords E i (g.take t) t0 pb) (varyingName i (t0 + t))
          (typeOf E ct)).2, typeOf E ct⟩ := by
  induction g generalizing t0 pb t with
  | nil => simp at h
  | cons c rest ih =>
    cases t with
    | zero =>
      simp only [List.getElem?_cons_zero, Option.some.injEq] at h
      subst h
      simp [emittedCoords, declareCoords]
    | succ t =>
      simp only [List.getElem?_cons_succ] at h
      simp only [emittedCoords, List.getElem?_cons_succ, List.take_succ_cons, declareCoords]
      rw [ih (t0 + 1) _ t h]
      have e : t0 + 1 + t = t0 + (t + 1) := by omega
      rw [e]

theorem emittedRecords_getElem? (E : Collaborators SkMatrix GrCoordTransform Builder) (i : Nat)
    (g : List GrCoordTransform) (t0 base : Nat) (pb : Builder) (t : Nat)
    (ct : GrCoordTransform) (h : g[t]? = some ct) :
    (emittedRecords E i g t0 base pb)[t]?
      = some { fType := typeOf E ct
               fVariable := E.fInputsBack (E.addVarying (declareCoords E i (g.take t) t0 pb)
                 (varyingName i (t0 + t)) (typeOf E ct)).1
               fLocation := ((base + t : Nat) : Int) } := by
  induction g generalizing t0 base pb t with
  | nil => simp at h
  | cons c rest ih =>
    cases t with
    | zero =>
      simp only [List.getElem?_cons_zero, Option.some.injEq] at h
      subst h
      simp [emittedRecords, declareCoords]
    | succ t =>
      simp only [List.getElem?_cons_succ] at h
      simp only [emittedRecords, List.getElem?_cons_succ, List.take_succ_cons, declareCoords]
      rw [ih (t0 + 1) (base + 1) _ t h]
      have e : t0 + 1 + t = t0 + (t + 1) := by omega
      have e2 : base + 1 + t = base + (t + 1) := by omega
      rw [e, e2]

theorem emittedOut_getElem? (E : Collaborators SkMatrix GrCoordTransform Builder)
    (tin : List (List GrCoordTransform)) (i0 : Nat) (pb : Builder) (i : Nat)
    (g : List GrCoordTransform) (h : tin[i]? = some g) :
    (emittedOut E tin i0 pb)[i]?
      = some (emittedCoords E (i0 + i) g 0 (declareGroups E (tin.take i) i0 pb)) := by
  induction tin generalizing i0 pb i with
  | nil => simp at h
  | cons a rest ih =>
    cases i with
    | zero =>
      simp only [List.getElem?_cons_zero, Option.some.injEq] at h
      subst h
      simp [emittedOut, declareGroups]
    | succ i =>
      simp only [List.getElem?_cons_succ] at h
      simp only [emittedOut, List.getElem?_cons_succ, List.take_succ_cons, declareGroups]
      rw [ih (i0 + 1) _ i h]
      have e : i0 + 1 + i = i0 + (i + 1) := by omega
      rw [e]

theorem emittedAllRecords_getElem? (E : Collaborators SkMatrix GrCoordTransform Builder)
    (tin : List (List GrCoordTransform)) (i0 base : Nat) (pb : Builder) (i t : Nat)
    (g : List GrCoordTransform) (ct : GrCoordTransform) (h : tin[i]? = some g)
    (hct : g[t]? = some ct) :
    (emittedAllRecords E tin i0 base pb)[groupStart tin i + t]?
      = (emittedRecords E (i0 + i) g 0 (base + groupStart tin i)
          (declareGroups E (tin.take i) i0 pb))[t]? := by
  induction tin generalizing i0 base pb i with
  | nil => simp at h
  | cons a rest ih =>
    cases i with
    | zero =>
      simp only [List.getElem?_cons_zero, Option.some.injEq] at h
      subst h
      have ht : t < (emittedRecords E i0 a 0 base pb).length := by
        rw [emittedRecords_length]
        exact (List.getElem?_eq_some.mp hct).1
      simp only [emittedAllRecords, groupStart_zero, Nat.zero_add, Nat.add_zero, List.take_zero,
        declareGroups]
      rw [List.getElem?_append_left ht]
    | succ i =>
      simp only [List.getElem?_cons_succ] at h
      simp only [emittedAllRecords, groupStart_cons_succ, List.take_succ_cons, declareGroups]
      rw [List.getElem?_append_right (by rw [emittedRecords_length]; omega)]
      have e : a.length + groupStart rest i + t - (emittedRecords E i0 a 0 base pb).length
          = groupStart rest i + t := by
        rw [emittedRecords_length]
        omega
      rw [e, ih (i0 + 1) (base + a.length) _ i h]
      have e1 : i0 + 1 + i = i0 + (i + 1) := by omega
      have e2 : base + a.length + groupStart rest i = base + (a.length + groupStart rest i) := by
        omega
      rw [e1, e2]

/-! ## The varying-based strategy: the exact device calls of a sequence of draws -/

theorem drawAll_exact [DecidableEq SkMatrix]
    (E : Collaborators SkMatrix GrCoordTransform Builder)
    (ds : List (Draw SkMatrix GrCoordTransform)) (s : GrGLNormalPathProcessor SkMatrix)
    (hW : WellFormed s)
    (hfit : ∀ d ∈ ds, ∃ sk, (skeleton s.fInstalledTransforms)[d.index]? = some sk ∧
      sk.length ≤ d.coordTransforms.length) :
    ∃ s' traces, GrGLNormalPathProcessor.drawAll E s ds = some (s', traces) ∧
      traces.length = ds.length ∧
      ∀ (k : Nat) (d : Draw SkMatrix GrCoordTransform) (tr : List (PathRenderingCall SkMatrix)),
        ds[k]? = some d → traces[k]? = some tr →
          ∃ grp : List (Transform SkMatrix),
            (skeleton s.fInstalledTransforms)[d.index]?
                = some (grp.map fun e => (e.fHandle, e.fType)) ∧
              tr = pushesOf E d.localMatrix d.programID s.fSeparableVaryingInfos grp
                d.coordTransforms := by
  induction ds generalizing s with
  | nil =>
    refine ⟨s, [], rfl, rfl, ?_⟩
    intro k d tr hd
    simp at hd
  | cons d ds ih =>
    obtain ⟨sk, hsk, hlen⟩ := hfit d (List.mem_cons_self _ _)
    rw [skeleton_getElem?] at hsk
    obtain ⟨grp, hg, hgk⟩ := Option.map_eq_some'.mp hsk
    have hlen' : grp.length ≤ d.coordTransforms.length := by
      rw [← hgk] at hlen
      simpa using hlen
    have hstep := setTransformData_spec E s d.localMatrix d.index d.coordTransforms d.programID
      grp hW hg hlen'
    have hsk1 : skeleton (modifyAt (fun _ => cachedAfter E d.localMatrix grp d.coordTransforms)
        d.index s.fInstalledTransforms) = skeleton s.fInstalledTransforms :=
      skeleton_modifyAt _ _ grp _ hg (cachedAfter_key E d.localMatrix grp d.coordTransforms hlen')
    have hW1 := wellFormed_of_skeleton_eq s
      { s with
        fInstalledTransforms :=
          modifyAt (fun _ => cachedAfter E d.localMatrix grp d.coordTransforms) d.index
            s.fInstalledTransforms } hsk1 rfl hW
    obtain ⟨s', traces, h1, h5, h6⟩ := ih _ hW1 (by
      intro x hx
      obtain ⟨skx, hx1, hx2⟩ := hfit x (List.mem_cons_of_mem _ hx)
      exact ⟨skx, by rw [hsk1]; exact hx1, hx2⟩)
    refine ⟨s', pushesOf E d.localMatrix d.programID s.fSeparableVaryingInfos grp
      d.coordTransforms :: traces, ?_, ?_, ?_⟩
    · simp only [GrGLNormalPathProcessor.drawAll, hstep, h1]
    · simp [h5]
    · intro k x tr hx htr
      cases k with
      | zero =>
        simp only [List.getElem?_cons_zero, Option.some.injEq] at hx htr
        subst hx htr
        refine ⟨grp, ?_, rfl⟩
        rw [skeleton_getElem?, hg]
        rfl
      | succ k =>
        simp only [List.getElem?_cons_succ] at hx htr
        obtain ⟨grpx, hx1, hx2⟩ := h6 k x tr hx htr
        exact ⟨grpx, by rw [← hsk1]; exact hx1, hx2⟩

theorem pushesOf_eq_width [DecidableEq SkMatrix]
    (E : Collaborators SkMatrix GrCoordTransform Builder) (lm : SkMatrix) (pid : Nat)
    (infos : List SeparableVaryingInfo) (grp : List (Transform SkMatrix))
    (g cts : List GrCoordTransform)
    (hty : grp.map (fun e => e.fType) = g.map (typeOf E)) :
    pushesOf E lm pid infos grp cts
      = (List.zip grp (List.zip g cts)).filterMap fun p =>
          if p.1.fCurrentValue = E.GetTransformMatrix lm p.2.2 then none
          else some (setProgramPathFragmentInputTransform pid (locationOf infos p.1.fHandle)
            GrGLenum.GR_GL_OBJECT_LINEAR
            (if E.hasPerspective (E.getMatrix p.2.1) = true then 3 else 2)
            (E.GetTransformMatrix lm p.2.2)) := by
  induction grp generalizing g cts with
  | nil => simp [pushesOf]
  | cons e es ih =>
    cases g with
    | nil => simp at hty
    | cons ct0 g =>
      simp only [List.map_cons, List.cons.injEq] at hty
      cases cts with
      | nil => simp [pushesOf]
      | cons ct cts =>
        simp only [List.zip_cons_cons, List.filterMap_cons]
        by_cases heq : e.fCurrentValue = E.GetTransformMatrix lm ct
        · rw [pushesOf_cons_same E lm pid infos e es ct cts heq, ih g cts hty.2]
          simp only [heq, if_true]
        · rw [pushesOf_cons_changed E lm pid infos e es ct cts heq, ih g cts hty.2]
          simp only [heq, if_false, pushCall, hty.1, components_eq]

theorem normalEntries_map_type (E : Collaborators SkMatrix GrCoordTransform Builder)
    (base : Nat) (g : List GrCoordTransform) :
    (@normalEntries SkMatrix GrCoordTransform Builder E base g).map (fun e => e.fType)
      = g.map (typeOf E) := by
  induction g generalizing base with
  | nil => rfl
  | cons ct rest ih => simp [normalEntries, ih]

theorem group_of_key_eq (E : Collaborators SkMatrix GrCoordTransform Builder) (base : Nat)
    (g : List GrCoordTransform) (grp : List (Transform SkMatrix))
    (hk : grp.map (fun e => (e.fHandle, e.fType))
      = (@normalEntries SkMatrix GrCoordTransform Builder E base g).map
          fun e => (e.fHandle, e.fType)) :
    grp.length = g.length ∧
      grp.map (fun e => e.fType) = g.map (typeOf E) ∧
      ∀ (t : Nat) (ct0 : GrCoordTransform), g[t]? = some ct0 →
        ∃ e, grp[t]? = some e ∧ e.fHandle = ⟨((base + t : Nat) : Int)⟩ ∧
          e.fType = typeOf E ct0 := by
  refine ⟨?_, ?_, ?_⟩
  · have := congrArg List.length hk
    simpa [normalEntries_length] using this
  · have := congrArg (List.map Prod.snd) hk
    simp only [List.map_map] at this
    rw [← normalEntries_map_type E base g]
    exact this
  · intro t ct0 hct0
    have h1 := congrArg (fun l => l[t]?) hk
    simp only [List.getElem?_map, normalEntries_getElem? E base g t ct0 hct0,
      Option.map_some'] at h1
    obtain ⟨e, he, hek⟩ := Option.map_eq_some'.mp h1
    simp only [Prod.mk.injEq] at hek
    exact ⟨e, he, hek.1, hek.2⟩

/-! ## The varying-based strategy: the claims -/

/-- Claim C4. In a well-formed state, for a group `index` with installed entries `grp` and
a list of as many coordinate transforms, `setTransformData` returns, and its device calls
are, in order, one push for each position whose combined matrix differs from the cached
matrix of the entry and none for the others; afterwards the cached matrices of the group
are the combined matrices just supplied; and a second call with the same matrices makes
no device call and leaves the state unchanged. -/
theorem normal_setTransformData_pushes_changed [DecidableEq SkMatrix]
    (E : Collaborators SkMatrix GrCoordTransform Builder)
    (s : GrGLNormalPathProcessor SkMatrix) (lm : SkMatrix) (index : Nat)
    (cts : List GrCoordTransform) (pid pid' : Nat) (grp : List (Transform SkMatrix))
    (hW : WellFormed s) (hg : s.fInstalledTransforms[index]? = some grp)
    (hlen : cts.length = grp.length) :
    ∃ s1,
      GrGLNormalPathProcessor.setTransformData E s lm index cts pid
          = some (s1, (List.zip grp cts).filterMap fun p =>
              if p.1.fCurrentValue = E.GetTransformMatrix lm p.2 then none
              else some (setProgramPathFragmentInputTransform pid
                (locationOf s.fSeparableVaryingInfos p.1.fHandle) GrGLenum.GR_GL_OBJECT_LINEAR
                (if p.1.fType = kVec2f_GrSLType then 2 else 3)
                (E.GetTransformMatrix lm p.2))) ∧
        (s1.fInstalledTransforms[index]?).map (List.map fun e => e.fCurrentValue)
          = some (cts.map (E.GetTransformMatrix lm)) ∧
        GrGLNormalPathProcessor.setTransformData E s1 lm index cts pid' = some (s1, []) := by
  have hle : grp.length ≤ cts.length := by omega
  have h1 := setTransformData_spec E s lm index cts pid grp hW hg hle
  have hsk : skeleton (modifyAt (fun _ => cachedAfter E lm grp cts) index
      s.fInstalledTransforms) = skeleton s.fInstalledTransforms :=
    skeleton_modifyAt _ _ grp _ hg (cachedAfter_key E lm grp cts hle)
  have hW1 := wellFormed_of_skeleton_eq s
    { s with
      fInstalledTransforms := modifyAt (fun _ => cachedAfter E lm grp cts) index
        s.fInstalledTransforms } hsk rfl hW
  have hg1 := modifyAt_const_getElem? s.fInstalledTransforms index grp
    (cachedAfter E lm grp cts) hg
  have hle1 : (cachedAfter E lm grp cts).length ≤ cts.length := by
    simp only [cachedAfter, List.length_zipWith]
    omega
  have h2 := setTransformData_spec E _ lm index cts pid' (cachedAfter E lm grp cts) hW1 hg1 hle1
  refine ⟨_, h1, ?_, ?_⟩
  · simp only [hg1, Option.map_some']
    rw [cachedAfter_values E lm grp cts (by omega)]
  · rw [h2, pushesOf_cachedAfter, cachedAfter_idem]
    simp only [modifyAt_const_twice]

/-- Claim C6. After `emitTransforms` on a fresh processor, for every transform `t` of every
group `i`: the type of its matrix is three-component exactly when the matrix has a
perspective term and two-component otherwise; that type is the one passed to `addVarying`
(with the name of `(i, t)`, on the builder as the earlier transforms left it), the one put
in the output array, the one of the installed entry and the one of the varying record at
index `groupStart tin i + t`. In every state that keeps the emitted handles, types and
number of records, `setTransformData` for group `i` with a list of as many transforms
returns, keeps them, and its device calls are exactly, in order, one call for each
position `t` whose cached matrix differs from the combined matrix, that call passing the
component count `3` when the matrix given at emission for position `t` has a perspective
term and `2` otherwise. With or without location resolution in between, every sequence of
such draws returns (no assertion fails) and the device calls of each draw have that form. -/
theorem normal_component_width_fixed_at_emission [DecidableEq SkMatrix]
    (E : Collaborators SkMatrix GrCoordTransform Builder) (illegal : GrColor) (pb : Builder)
    (tin : List (List GrCoordTransform)) (resolved : Option Nat)
    (ds : List (Draw SkMatrix GrCoordTransform))
    (hfit : ∀ d ∈ ds, (tin[d.index]?).map List.length = some d.coordTransforms.length) :
    (∀ (i t : Nat) (g : List GrCoordTransform) (ct : GrCoordTransform),
      tin[i]? = some g → g[t]? = some ct →
        (typeOf E ct = if E.hasPerspective (E.getMatrix ct) = true then kVec3f_GrSLType
          else kVec2f_GrSLType) ∧
          ((GrGLNormalPathProcessor.emitTransforms E
              (GrGLNormalPathProcessor.new SkMatrix illegal) pb tin []).tout[i]?.bind
              fun a => a[t]?)
            = some (TransformedCoords.mk
                (E.addVarying (declareCoords E i (g.take t) 0 (declareGroups E (tin.take i) 0 pb))
                  (varyingName i t) (typeOf E ct)).2
                (typeOf E ct)) ∧
          ((GrGLNormalPathProcessor.emitTransforms E
              (GrGLNormalPathProcessor.new SkMatrix illegal) pb tin
              []).proc.fInstalledTransforms[i]?.bind fun a => a[t]?)
            = some (Transform.mk ⟨((groupStart tin i + t : Nat) : Int)⟩ E.InvalidMatrix
                (typeOf E ct)) ∧
          (GrGLNormalPathProcessor.emitTransforms E
              (GrGLNormalPathProcessor.new SkMatrix illegal) pb tin
              []).proc.fSeparableVaryingInfos[groupStart tin i + t]?
            = some (SeparableVaryingInfo.mk (typeOf E ct)
                (E.fInputsBack
                  (E.addVarying
                    (declareCoords E i (g.take t) 0 (declareGroups E (tin.take i) 0 pb))
                    (varyingName i t) (typeOf E ct)).1)
                ((groupStart tin i + t : Nat) : Int))) ∧
      (∀ (s : GrGLNormalPathProcessor SkMatrix) (lm : SkMatrix) (index : Nat)
        (cts : List GrCoordTransform) (pid : Nat) (g : List GrCoordTransform),
        SameHandles s (GrGLNormalPathProcessor.emitTransforms E
            (GrGLNormalPathProcessor.new SkMatrix illegal) pb tin []).proc →
          tin[index]? = some g → cts.length = g.length →
            ∃ grp s1,
              s.fInstalledTransforms[index]? = some grp ∧ grp.length = g.length ∧
                (∀ (t : Nat) (ct0 : GrCoordTransform), g[t]? = some ct0 →
                  ∃ e, grp[t]? = some e ∧
                    e.fHandle = ⟨((groupStart tin index + t : Nat) : Int)⟩ ∧
                    e.fType = typeOf E ct0) ∧
                GrGLNormalPathProcessor.setTransformData E s lm index cts pid
                  = some (s1, (List.zip grp (List.zip g cts)).filterMap fun p =>
                      if p.1.fCurrentValue = E.GetTransformMatrix lm p.2.2 then none
                      else some (setProgramPathFragmentInputTransform pid
                        (locationOf s.fSeparableVaryingInfos p.1.fHandle)
                        GrGLenum.GR_GL_OBJECT_LINEAR
                        (if E.hasPerspective (E.getMatrix p.2.1) = true then 3 else 2)
                        (E.GetTransformMatrix lm p.2.2))) ∧
                SameHandles s1 (GrGLNormalPathProcessor.emitTransforms E
                  (GrGLNormalPathProcessor.new SkMatrix illegal) pb tin []).proc) ∧
      ∃ s' traces,
        GrGLNormalPathProcessor.drawAll E
            (resolved.elim
              (GrGLNormalPathProcessor.emitTransforms E
                (GrGLNormalPathProcessor.new SkMatrix illegal) pb tin []).proc
              (GrGLNormalPathProcessor.resolveSeparableVaryings E
                (GrGLNormalPathProcessor.emitTransforms E
                  (GrGLNormalPathProcessor.new SkMatrix illegal) pb tin []).proc))
            ds = some (s', traces) ∧
          traces.length = ds.length ∧
          ∀ (k : Nat) (d : Draw SkMatrix GrCoordTransform)
            (tr : List (PathRenderingCall SkMatrix)) (g : List GrCoordTransform),
            ds[k]? = some d → traces[k]? = some tr → tin[d.index]? = some g →
              ∃ grp : List (Transform SkMatrix), grp.length = g.length ∧
                (∀ (t : Nat) (ct0 : GrCoordTransform), g[t]? = some ct0 →
                  ∃ e, grp[t]? = some e ∧
                    e.fHandle = ⟨((groupStart tin d.index + t : Nat) : Int)⟩ ∧
                    e.fType = typeOf E ct0) ∧
                tr = (List.zip grp (List.zip g d.coordTransforms)).filterMap fun p =>
                  if p.1.fCurrentValue = E.GetTransformMatrix d.localMatrix p.2.2 then none
                  else some (setProgramPathFragmentInputTransform d.programID
                    (locationOf
                      (resolved.elim
                        (GrGLNormalPathProcessor.emitTransforms E
                          (GrGLNormalPathProcessor.new SkMatrix illegal) pb tin []).proc
                        (GrGLNormalPathProcessor.resolveSeparableVaryings E
                          (GrGLNormalPathProcessor.emitTransforms E
                            (GrGLNormalPathProcessor.new SkMatrix illegal) pb tin
                            []).proc)).fSeparableVaryingInfos p.1.fHandle)
                    GrGLenum.GR_GL_OBJECT_LINEAR
                    (if E.hasPerspective (E.getMatrix p.2.1) = true then 3 else 2)
                    (E.GetTransformMatrix d.localMatrix p.2.2)) := by
  obtain ⟨e1, _, _, _⟩ := normal_emitTransforms_spec E illegal pb tin
  obtain ⟨x1, x2⟩ := normal_emitTransforms_exact E illegal pb tin
  refine ⟨?_, ?_, ?_⟩
  · intro i t g ct hg hct
    refine ⟨rfl, ?_, ?_, ?_⟩
    · rw [x2, emittedOut_getElem? E tin 0 pb i g hg]
      simp only [Option.some_bind, Nat.zero_add]
      rw [emittedCoords_getElem? E i g 0 _ t ct hct, Nat.zero_add]
    · rw [e1, normalInstalled_getElem? E 0 tin i g hg]
      simp only [Option.some_bind, Nat.zero_add]
      exact normalEntries_getElem? E _ g t ct hct
    · rw [x1, emittedAllRecords_getElem? E tin 0 0 pb i t g ct hg hct]
      simp only [Nat.zero_add]
      rw [emittedRecords_getElem? E i g 0 _ _ t ct hct, Nat.zero_add]
  · intro s lm index cts pid g hs hg hlen
    have hW : WellFormed s :=
      wellFormed_of_skeleton_eq _ s hs.1 hs.2 (normal_emit_wellFormed E illegal pb tin)
    have hk : (skeleton s.fInstalledTransforms)[index]?
        = some ((@normalEntries SkMatrix GrCoordTransform Builder E (groupStart tin index) g).map
            fun e => (e.fHandle, e.fType)) := by
      rw [hs.1, e1]
      exact skeleton_normalInstalled_getElem? E tin index g hg
    rw [skeleton_getElem?] at hk
    obtain ⟨grp, hgrp, hgk⟩ := Option.map_eq_some'.mp hk
    obtain ⟨k1, k2, k3⟩ := group_of_key_eq E (groupStart tin index) g grp hgk
    have hle : grp.length ≤ cts.length := by omega
    refine ⟨grp,
      { s with
        fInstalledTransforms :=
          modifyAt (fun _ => cachedAfter E lm grp cts) index s.fInstalledTransforms },
      hgrp, k1, k3, ?_, ?_, hs.2⟩
    · rw [setTransformData_spec E s lm index cts pid grp hW hgrp hle,
        pushesOf_eq_width E lm pid s.fSeparableVaryingInfos grp g cts k2]
    · rw [← hs.1]
      exact skeleton_modifyAt _ _ grp _ hgrp (cachedAfter_key E lm grp cts hle)
  · have hsk0 : skeleton (resolved.elim
        (GrGLNormalPathProcessor.emitTransforms E
          (GrGLNormalPathProcessor.new SkMatrix illegal) pb tin []).proc
        (GrGLNormalPathProcessor.resolveSeparableVaryings E
          (GrGLNormalPathProcessor.emitTransforms E
            (GrGLNormalPathProcessor.new SkMatrix illegal) pb tin
            []).proc)).fInstalledTransforms = skeleton (normalInstalled E 0 tin) := by
      cases resolved with
      | none => simp only [Option.elim, e1]
      | some prog =>
        simp only [Option.elim, GrGLNormalPathProcessor.resolveSeparableVaryings, e1]
    have hW0 : WellFormed (resolved.elim
        (GrGLNormalPathProcessor.emitTransforms E
          (GrGLNormalPathProcessor.new SkMatrix illegal) pb tin []).proc
        (GrGLNormalPathProcessor.resolveSeparableVaryings E
          (GrGLNormalPathProcessor.emitTransforms E
            (GrGLNormalPathProcessor.new SkMatrix illegal) pb tin []).proc)) := by
      cases resolved with
      | none => exact normal_emit_wellFormed E illegal pb tin
      | some prog => exact resolve_wellFormed E _ prog (normal_emit_wellFormed E illegal pb tin)
    have hfit' : ∀ d ∈ ds, ∃ sk, (skeleton (resolved.elim
        (GrGLNormalPathProcessor.emitTransforms E
          (GrGLNormalPathProcessor.new SkMatrix illegal) pb tin []).proc
        (GrGLNormalPathProcessor.resolveSeparableVaryings E
          (GrGLNormalPathProcessor.emitTransforms E
            (GrGLNormalPathProcessor.new SkMatrix illegal) pb tin
            []).proc)).fInstalledTransforms)[d.index]? = some sk ∧
        sk.length ≤ d.coordTransforms.length := by
      intro d hd
      obtain ⟨g, hg, hl⟩ := Option.map_eq_some'.mp (hfit d hd)
      refine ⟨_, by rw [hsk0]; exact skeleton_normalInstalled_getElem? E tin d.index g hg, ?_⟩
      rw [List.length_map, normalEntries_length, hl]
    obtain ⟨s', traces, h1, h2, h3⟩ := drawAll_exact E ds _ hW0 hfit'
    refine ⟨s', traces, h1, h2, ?_⟩
    intro k d tr g hd htr hg
    obtain ⟨grp, hgk, htr'⟩ := h3 k d tr hd htr
    rw [hsk0, skeleton_normalInstalled_getElem? E tin d.index g hg] at hgk
    simp only [Option.some.injEq] at hgk
    obtain ⟨k1, k2, k3⟩ := group_of_key_eq E (groupStart tin d.index) g grp hgk.symm
    refine ⟨grp, k1, k3, ?_⟩
    rw [htr', pushesOf_eq_width E d.localMatrix d.programID _ grp g d.coordTransforms k2]

/-- Claim C7. `resolveSeparableVaryings` changes only the stored locations: the installed
entries, the base state and the number of records are unchanged and each record keeps its
type and variable, its location becoming what the device reports for that variable;
`setTransformData` never changes a record. After `emitTransforms` on a fresh processor
followed by `resolveSeparableVaryings` for program `prog`, every sequence of
`setTransformData` calls whose transform lists have the installed lengths returns, leaves
the records as resolution stored them, and the device calls of each draw of group `i` are
a subsequence of a list whose element for transform `t` targets the location the device
reported for the variable of the record emitted for `(i, t)`. -/
theorem normal_pushes_use_resolved_location [DecidableEq SkMatrix]
    (E : Collaborators SkMatrix GrCoordTransform Builder) (illegal : GrColor) (pb : Builder)
    (tin : List (List GrCoordTransform)) (prog : Nat)
    (ds : List (Draw SkMatrix GrCoordTransform))
    (hfit : ∀ d ∈ ds, (tin[d.index]?).map List.length = some d.coordTransforms.length) :
    (∀ (s : GrGLNormalPathProcessor SkMatrix) (p : Nat),
      (GrGLNormalPathProcessor.resolveSeparableVaryings E s p).fInstalledTransforms
          = s.fInstalledTransforms ∧
        (GrGLNormalPathProcessor.resolveSeparableVaryings E s p).toGrGLPathProcessor
          = s.toGrGLPathProcessor ∧
        (GrGLNormalPathProcessor.resolveSeparableVaryings E s p).fSeparableVaryingInfos.length
          = s.fSeparableVaryingInfos.length ∧
        ∀ (k : Nat) (v : SeparableVaryingInfo), s.fSeparableVaryingInfos[k]? = some v →
          (GrGLNormalPathProcessor.resolveSeparableVaryings E s p).fSeparableVaryingInfos[k]?
            = some { fType := v.fType, fVariable := v.fVariable,
                     fLocation := E.GetProgramResourceLocation p v.fVariable.c_str }) ∧
      (∀ (s s1 : GrGLNormalPathProcessor SkMatrix) (lm : SkMatrix) (index : Nat)
        (cts : List GrCoordTransform) (pid : Nat) (calls : List (PathRenderingCall SkMatrix)),
        GrGLNormalPathProcessor.setTransformData E s lm index cts pid = some (s1, calls) →
          s1.fSeparableVaryingInfos = s.fSeparableVaryingInfos) ∧
      ∃ s' traces,
        GrGLNormalPathProcessor.drawAll E
            (GrGLNormalPathProcessor.resolveSeparableVaryings E
              (GrGLNormalPathProcessor.emitTransforms E
                (GrGLNormalPathProcessor.new SkMatrix illegal) pb tin []).proc prog)
            ds = some (s', traces) ∧
          s'.fSeparableVaryingInfos
            = (GrGLNormalPathProcessor.resolveSeparableVaryings E
                (GrGLNormalPathProcessor.emitTransforms E
                  (GrGLNormalPathProcessor.new SkMatrix illegal) pb tin
                  []).proc prog).fSeparableVaryingInfos ∧
          traces.length = ds.length ∧
          ∀ (k : Nat) (d : Draw SkMatrix GrCoordTransform)
            (tr : List (PathRenderingCall SkMatrix)) (g : List GrCoordTransform),
            ds[k]? = some d → traces[k]? = some tr → tin[d.index]? = some g →
              ∃ full, tr.Sublist full ∧ full.length = g.length ∧
                ∀ (t : Nat) (ct : GrCoordTransform), d.coordTransforms[t]? = some ct →
                  ∃ v comps,
                    (GrGLNormalPathProcessor.emitTransforms E
                      (GrGLNormalPathProcessor.new SkMatrix illegal) pb tin
                      []).proc.fSeparableVaryingInfos[groupStart tin d.index + t]? = some v ∧
                    full[t]? = some (setProgramPathFragmentInputTransform d.programID
                      (E.GetProgramResourceLocation prog v.fVariable.c_str)
                      GrGLenum.GR_GL_OBJECT_LINEAR comps
                      (E.GetTransformMatrix d.localMatrix ct)) := by
  refine ⟨?_, ?_, ?_⟩
  · intro s p
    refine ⟨rfl, rfl, by simp [GrGLNormalPathProcessor.resolveSeparableVaryings], ?_⟩
    intro k v hv
    exact resolve_getElem? E s p k v hv
  · intro s s1 lm index cts pid calls h
    exact (setTransformData_infos E s s1 lm index cts pid calls h).1
  · obtain ⟨e1, _, _, _⟩ := normal_emitTransforms_spec E illegal pb tin
    have hsk0 : skeleton (GrGLNormalPathProcessor.resolveSeparableVaryings E
        (GrGLNormalPathProcessor.emitTransforms E
          (GrGLNormalPathProcessor.new SkMatrix illegal) pb tin
          []).proc prog).fInstalledTransforms = skeleton (normalInstalled E 0 tin) := by
      simp only [GrGLNormalPathProcessor.resolveSeparableVaryings, e1]
    obtain ⟨s', traces, h1, _, h3, h4, h5⟩ := normal_draws_spec E tin _ ds hsk0
      (resolve_wellFormed E _ prog (normal_emit_wellFormed E illegal pb tin)) hfit
    refine ⟨s', traces, h1, h3, h4, ?_⟩
    intro k d tr g hd htr hg
    have hdl : d.coordTransforms.length = g.length := by
      have := hfit d (List.getElem?_mem hd)
      rw [hg] at this
      simpa using this.symm
    refine ⟨_, h5 k d tr g hd htr hg, ?_, ?_⟩
    · rw [allPushes_length _ _ _ _ _ _ (by rw [List.length_map, normalEntries_length, hdl]), hdl]
    · intro t ct hct
      have ht : t < g.length := by
        rw [← hdl]
        exact (List.getElem?_eq_some.mp hct).1
      have hp := @normalEntries_getElem? SkMatrix GrCoordTransform Builder E (groupStart tin d.index) g t
        (g[t]) (List.getElem?_eq_getElem ht)
      have hk : groupStart tin d.index + t
          < (GrGLNormalPathProcessor.emitTransforms E
              (GrGLNormalPathProcessor.new SkMatrix illegal) pb tin
              []).proc.fSeparableVaryingInfos.length := by
        rw [normal_emit_infos_length]
        have := groupStart_mono tin d.index tin.length g hg
          (List.getElem?_eq_some.mp hg).1
        rw [groupStart_length] at this
        omega
      have hall := allPushes_getElem? E d.localMatrix d.programID
        (GrGLNormalPathProcessor.resolveSeparableVaryings E
          (GrGLNormalPathProcessor.emitTransforms E
            (GrGLNormalPathProcessor.new SkMatrix illegal) pb tin
            []).proc prog).fSeparableVaryingInfos
        ((@normalEntries SkMatrix GrCoordTransform Builder E (groupStart tin d.index) g).map
          fun e => (e.fHandle, e.fType)) d.coordTransforms t _ ct (by
        rw [List.getElem?_map, hp]; rfl) hct
      simp only [pushCall] at hall
      rw [locationOf_resolve E _ prog _ _ (List.getElem?_eq_getElem hk)] at hall
      exact ⟨_, _, List.getElem?_eq_getElem hk, hall⟩

/-- Claim C4, on the state emitted for `demoGroups`, group `0`, drawn with a translation
and the identity. -/
theorem normal_setTransformData_pushes_changed_witness :
    ∃ s1,
      GrGLNormalPathProcessor.setTransformData (demo fun _ => 4)
          (GrGLNormalPathProcessor.emitTransforms (demo fun _ => 4)
            (GrGLNormalPathProcessor.new Mat3 0x00FFFFFF) [] demoGroups []).proc
          Mat3.I 0 [Mat3.translate 1 2, Mat3.I] 1
          = some (s1,
              [setProgramPathFragmentInputTransform 1 0 GrGLenum.GR_GL_OBJECT_LINEAR 2
                  (Mat3.translate 1 2),
                setProgramPathFragmentInputTransform 1 1 GrGLenum.GR_GL_OBJECT_LINEAR 3
                  Mat3.I]) ∧
        GrGLNormalPathProcessor.setTransformData (demo fun _ => 4) s1 Mat3.I 0
          [Mat3.translate 1 2, Mat3.I] 1 = some (s1, []) := by
  obtain ⟨s1, h1, _, h3⟩ := normal_setTransformData_pushes_changed (demo fun _ => 4)
    (GrGLNormalPathProcessor.emitTransforms (demo fun _ => 4)
      (GrGLNormalPathProcessor.new Mat3 0x00FFFFFF) [] demoGroups []).proc
    Mat3.I 0 [Mat3.translate 1 2, Mat3.I] 1 1
    [⟨⟨0⟩, (demo fun _ => 4).InvalidMatrix, kVec2f_GrSLType⟩,
      ⟨⟨1⟩, (demo fun _ => 4).InvalidMatrix, kVec3f_GrSLType⟩]
    (by unfold WellFormed; decide) (by rfl) (by rfl)
  exact ⟨s1, h1, h3⟩

/-- Claim C6, on the state emitted for `demoGroups`, resolved for program `1`, and the two
draws `demoDraws` of group `0`, whose second transform was emitted with a perspective
term: the first draw pushes the first matrix with two components and the second with
three, the second draw pushes nothing. -/
theorem normal_component_width_fixed_at_emission_witness :
    (∀ d ∈ demoDraws, (demoGroups[d.index]?).map List.length = some d.coordTransforms.length) ∧
      ∃ s' traces,
        GrGLNormalPathProcessor.drawAll (demo fun _ => 4)
            (GrGLNormalPathProcessor.resolveSeparableVaryings (demo fun _ => 4)
              (GrGLNormalPathProcessor.emitTransforms (demo fun _ => 4)
                (GrGLNormalPathProcessor.new Mat3 0x00FFFFFF) [] demoGroups []).proc 1)
            demoDraws = some (s', traces) ∧
          traces.length = 2 ∧
          traces =
            [[setProgramPathFragmentInputTransform 1 4 GrGLenum.GR_GL_OBJECT_LINEAR 2
                (Mat3.translate 1 2),
              setProgramPathFragmentInputTransform 1 4 GrGLenum.GR_GL_OBJECT_LINEAR 3 Mat3.I],
             []] := by
  have hfit : ∀ d ∈ demoDraws,
      (demoGroups[d.index]?).map List.length = some d.coordTransforms.length := by decide
  obtain ⟨s', traces, h1, h2, _⟩ := (normal_component_width_fixed_at_emission
    (demo fun _ => 4) 0x00FFFFFF [] demoGroups (some 1) demoDraws hfit).2.2
  have hd : (GrGLNormalPathProcessor.drawAll (demo fun _ => 4)
      (GrGLNormalPathProcessor.resolveSeparableVaryings (demo fun _ => 4)
        (GrGLNormalPathProcessor.emitTransforms (demo fun _ => 4)
          (GrGLNormalPathProcessor.new Mat3 0x00FFFFFF) [] demoGroups []).proc 1)
      demoDraws).map Prod.snd
      = some [[setProgramPathFragmentInputTransform 1 4 GrGLenum.GR_GL_OBJECT_LINEAR 2
                (Mat3.translate 1 2),
              setProgramPathFragmentInputTransform 1 4 GrGLenum.GR_GL_OBJECT_LINEAR 3 Mat3.I],
             []] := by decide
  simp only [Option.elim] at h1
  rw [h1] at hd
  simp only [Option.map_some', Option.some.injEq] at hd
  exact ⟨hfit, s', traces, h1, h2, hd⟩

/-- Claim C7, on the state emitted for `demoGroups`, resolved for program `1` by a device
that reports location `4`, and the two draws `demoDraws`. -/
theorem normal_pushes_use_resolved_location_witness :
    (∀ d ∈ demoDraws, (demoGroups[d.index]?).map List.length = some d.coordTransforms.length) ∧
      ∃ s' traces,
        GrGLNormalPathProcessor.drawAll (demo fun _ => 4)
            (GrGLNormalPathProcessor.resolveSeparableVaryings (demo fun _ => 4)
              (GrGLNormalPathProcessor.emitTransforms (demo fun _ => 4)
                (GrGLNormalPathProcessor.new Mat3 0x00FFFFFF) [] demoGroups []).proc 1)
            demoDraws = some (s', traces) ∧
          s'.fSeparableVaryingInfos.map (fun r => r.fLocation) = [4, 4, 4] := by
  have hfit : ∀ d ∈ demoDraws,
      (demoGroups[d.index]?).map List.length = some d.coordTransforms.length := by decide
  obtain ⟨s', traces, h1, h2, _⟩ := (normal_pushes_use_resolved_location
    (demo fun _ => 4) 0x00FFFFFF [] demoGroups 1 demoDraws hfit).2.2
  refine ⟨hfit, s', traces, h1, ?_⟩
  rw [h2]
  decide

/-- Claim C8, as stated, fails: after one transform is emitted and the device reports the
location `-1` for its variable, the first draw pushes the matrix to location `-1`. -/
theorem normal_push_to_invalid_location :
    (GrGLNormalPathProcessor.setTransformData (demo fun _ => -1)
        (GrGLNormalPathProcessor.resolveSeparableVaryings (demo fun _ => -1)
          (GrGLNormalPathProcessor.emitTransforms (demo fun _ => -1)
            (GrGLNormalPathProcessor.new Mat3 0x00FFFFFF) [] [[Mat3.I]] []).proc 1)
        Mat3.I 0 [Mat3.I] 1).map Prod.snd
      = some [setProgramPathFragmentInputTransform 1 (-1) GrGLenum.GR_GL_OBJECT_LINEAR 2
          Mat3.I] := by
  decide

/-- Claim C8, amended. `setTransformData` does not check the stored location: in a
well-formed state resolved for program `prog`, a transform whose combined matrix differs
from the cached matrix of its entry is pushed to the location the device reported for the
variable of the entry's record, whatever that location is (`-1` included). -/
theorem normal_push_location_unchecked [DecidableEq SkMatrix]
    (E : Collaborators SkMatrix GrCoordTransform Builder)
    (s : GrGLNormalPathProcessor SkMatrix) (prog : Nat) (lm : SkMatrix) (index : Nat)
    (cts : List GrCoordTransform) (pid : Nat) (grp : List (Transform SkMatrix)) (t : Nat)
    (e : Transform SkMatrix) (ct : GrCoordTransform) (v : SeparableVaryingInfo)
    (hW : WellFormed s) (hg : s.fInstalledTransforms[index]? = some grp)
    (hlen : grp.length ≤ cts.length) (he : grp[t]? = some e) (hct : cts[t]? = some ct)
    (hv : infoAt s.fSeparableVaryingInfos e.fHandle.handle = some v)
    (hne : e.fCurrentValue ≠ E.GetTransformMatrix lm ct) :
    ∃ s1 calls,
      GrGLNormalPathProcessor.setTransformData E
          (GrGLNormalPathProcessor.resolveSeparableVaryings E s prog) lm index cts pid
          = some (s1, calls) ∧
        setProgramPathFragmentInputTransform pid
          (E.GetProgramResourceLocation prog v.fVariable.c_str) GrGLenum.GR_GL_OBJECT_LINEAR
          (if e.fType = kVec2f_GrSLType then 2 else 3) (E.GetTransformMatrix lm ct) ∈ calls := by
  have h1 := setTransformData_spec E (GrGLNormalPathProcessor.resolveSeparableVaryings E s prog)
    lm index cts pid grp (resolve_wellFormed E s prog hW) hg hlen
  refine ⟨_, _, h1, ?_⟩
  have hm := pushesOf_mem E lm pid
    (GrGLNormalPathProcessor.resolveSeparableVaryings E s prog).fSeparableVaryingInfos grp cts t
    e ct he hct hne
  have hloc : locationOf
      (GrGLNormalPathProcessor.resolveSeparableVaryings E s prog).fSeparableVaryingInfos
      e.fHandle = E.GetProgramResourceLocation prog v.fVariable.c_str := by
    unfold infoAt at hv
    split at hv
    · simp at hv
    · rename_i hn
      simp only [locationOf, infoAt, if_neg hn, resolve_getElem? E s prog _ v hv]
  simp only [pushCall, hloc] at hm
  exact hm

/-- Claim C8, amended, on one emitted transform whose variable the device does not find:
the first draw pushes to location `-1`. -/
theorem normal_push_location_unchecked_witness :
    ∃ s1 calls,
      GrGLNormalPathProcessor.setTransformData (demo fun _ => -1)
          (GrGLNormalPathProcessor.resolveSeparableVaryings (demo fun _ => -1)
            (GrGLNormalPathProcessor.emitTransforms (demo fun _ => -1)
              (GrGLNormalPathProcessor.new Mat3 0x00FFFFFF) [] [[Mat3.I]] []).proc 1)
          Mat3.I 0 [Mat3.I] 1 = some (s1, calls) ∧
        setProgramPathFragmentInputTransform 1 (-1) GrGLenum.GR_GL_OBJECT_LINEAR 2 Mat3.I
          ∈ calls :=
  normal_push_location_unchecked (demo fun _ => -1)
    (GrGLNormalPathProcessor.emitTransforms (demo fun _ => -1)
      (GrGLNormalPathProcessor.new Mat3 0x00FFFFFF) [] [[Mat3.I]] []).proc 1 Mat3.I 0 [Mat3.I] 1
    [⟨⟨0⟩, (demo fun _ => -1).InvalidMatrix, kVec2f_GrSLType⟩] 0
    ⟨⟨0⟩, (demo fun _ => -1).InvalidMatrix, kVec2f_GrSLType⟩ Mat3.I
    ⟨kVec2f_GrSLType, ⟨kVec2f_GrSLType, "vMatrixCoord_0_0"⟩, 0⟩
    (by unfold WellFormed; decide) (by rfl) (by decide) (by rfl) (by rfl) (by rfl) (by decide)

/-- Claim C10. After `emitTransforms` on a fresh processor, the number of varying records
is the sum of the transform counts; group `i` has as many installed entries as transforms,
and the handle of transform `t` of group `i` is valid, equals `groupStart tin i + t` and
is an index into the records; distinct transforms have distinct handles; and the handles,
types and number of records are kept by `resolveSeparableVaryings` and by
`setTransformData`, which returns (the handle assertion and the record lookup do not
fail) for every installed group and a transform list of the installed length. -/
theorem normal_handles_index_records [DecidableEq SkMatrix]
    (E : Collaborators SkMatrix GrCoordTransform Builder) (illegal : GrColor) (pb : Builder)
    (tin : List (List GrCoordTransform)) :
    (GrGLNormalPathProcessor.emitTransforms E (GrGLNormalPathProcessor.new SkMatrix illegal) pb
        tin []).proc.fSeparableVaryingInfos.length = (tin.map List.length).sum ∧
      (∀ (i t : Nat) (g : List GrCoordTransform) (ct : GrCoordTransform),
        tin[i]? = some g → g[t]? = some ct →
          ∃ grp e,
            (GrGLNormalPathProcessor.emitTransforms E
              (GrGLNormalPathProcessor.new SkMatrix illegal) pb tin
              []).proc.fInstalledTransforms[i]? = some grp ∧
            grp.length = g.length ∧ grp[t]? = some e ∧ e.fHandle.isValid = true ∧
            e.fHandle.handle = ((groupStart tin i + t : Nat) : Int) ∧
            groupStart tin i + t < (GrGLNormalPathProcessor.emitTransforms E
              (GrGLNormalPathProcessor.new SkMatrix illegal) pb tin
              []).proc.fSeparableVaryingInfos.length) ∧
      (∀ (i j t u : Nat) (g h : List GrCoordTransform),
        tin[i]? = some g → tin[j]? = some h → t < g.length → u < h.length →
          groupStart tin i + t = groupStart tin j + u → i = j ∧ t = u) ∧
      (∀ (s : GrGLNormalPathProcessor SkMatrix) (p : Nat),
        SameHandles s (GrGLNormalPathProcessor.emitTransforms E
            (GrGLNormalPathProcessor.new SkMatrix illegal) pb tin []).proc →
          SameHandles (GrGLNormalPathProcessor.resolveSeparableVaryings E s p)
            (GrGLNormalPathProcessor.emitTransforms E
              (GrGLNormalPathProcessor.new SkMatrix illegal) pb tin []).proc) ∧
      (∀ (s : GrGLNormalPathProcessor SkMatrix) (lm : SkMatrix) (index : Nat)
        (cts : List GrCoordTransform) (pid : Nat) (g : List GrCoordTransform),
        SameHandles s (GrGLNormalPathProcessor.emitTransforms E
            (GrGLNormalPathProcessor.new SkMatrix illegal) pb tin []).proc →
          tin[index]? = some g → cts.length = g.length →
            ∃ s1 calls,
              GrGLNormalPathProcessor.setTransformData E s lm index cts pid = some (s1, calls) ∧
                SameHandles s1 (GrGLNormalPathProcessor.emitTransforms E
                  (GrGLNormalPathProcessor.new SkMatrix illegal) pb tin []).proc) := by
  obtain ⟨e1, _, _, _⟩ := normal_emitTransforms_spec E illegal pb tin
  have hlenI := normal_emit_infos_length E illegal pb tin
  refine ⟨hlenI, ?_, ?_, ?_, ?_⟩
  · intro i t g ct hg hct
    refine ⟨_, _, by rw [e1]; exact normalInstalled_getElem? E 0 tin i g hg,
      normalEntries_length E _ g, normalEntries_getElem? E _ g t ct hct, ?_, ?_, ?_⟩
    · simp only [ShaderVarHandle.isValid, decide_eq_true_eq]
      omega
    · simp [ShaderVarHandle.handle]
    · rw [hlenI]
      have := groupStart_mono tin i tin.length g hg (List.getElem?_eq_some.mp hg).1
      rw [groupStart_length] at this
      have := (List.getElem?_eq_some.mp hct).1
      omega
  · intro i j t u g h hg hh ht hu heq
    rcases Nat.lt_trichotomy i j with hij | hij | hij
    · have := groupStart_mono tin i j g hg hij
      omega
    · subst hij
      rw [hg] at hh
      exact ⟨rfl, by omega⟩
    · have := groupStart_mono tin j i h hh hij
      omega
  · intro s p hs
    exact ⟨hs.1, by simpa [GrGLNormalPathProcessor.resolveSeparableVaryings] using hs.2⟩
  · intro s lm index cts pid g hs hg hlen
    have hW : WellFormed s :=
      wellFormed_of_skeleton_eq _ s hs.1 hs.2 (normal_emit_wellFormed E illegal pb tin)
    have hk : (skeleton s.fInstalledTransforms)[index]?
        = some ((@normalEntries SkMatrix GrCoordTransform Builder E (groupStart tin index) g).map
            fun e => (e.fHandle, e.fType)) := by
      rw [hs.1, e1]
      exact skeleton_normalInstalled_getElem? E tin index g hg
    rw [skeleton_getElem?] at hk
    obtain ⟨grp, hgrp, hgk⟩ := Option.map_eq_some'.mp hk
    have hgl : grp.length = g.length := by
      have := congrArg List.length hgk
      simpa [normalEntries_length] using this
    have hle : grp.length ≤ cts.length := by omega
    refine ⟨_, _, setTransformData_spec E s lm index cts pid grp hW hgrp hle, ?_, hs.2⟩
    rw [← hs.1]
    exact skeleton_modifyAt _ _ grp _ hgrp (cachedAfter_key E lm grp cts hle)

end Normal

end GrGL
